import Mathlib

/-!
Verification development for the intern-assistant repository.

The Python sources under `app/` are shallowly embedded as pure Lean
functions.  Strings are modelled as `List Char` (`Str`), the Obsidian
vault as an association list from relative paths (lists of path
components) to file contents, and SQLite tables as Lean lists of row
structures.  Every LLM call in the sources is an effect whose result is
not determined by the program; such results are supplied as explicit
oracle values (fields of `Oracles`), and the wall clock (`datetime.now`)
is supplied as an explicit `today : Date` parameter.  Chat-message
persistence (`MemoryService.add_message`) only appends to the message
log and never influences routing, agent state, or the vault, so it is
not modelled.
-/

namespace InternAssistant

/-- Strings are modelled as lists of characters. -/
abbrev Str := List Char

/-- Coerce a Lean string literal to the `Str` model. -/
def str (s : String) : Str := s.data

/-- Python `str.lower()` (ASCII behaviour). -/
def pyLower (s : Str) : Str := s.map Char.toLower

/-- Python `str.lstrip()`: drop leading whitespace. -/
def pyLstrip (s : Str) : Str := s.dropWhile Char.isWhitespace

/-- Python `str.rstrip()`: drop trailing whitespace. -/
def pyRstrip (s : Str) : Str := (s.reverse.dropWhile Char.isWhitespace).reverse

/-- Python `str.strip()`: drop leading and trailing whitespace. -/
def pyStrip (s : Str) : Str := pyRstrip (pyLstrip s)

/-- Python's `needle in haystack` substring test. -/
def isSubstring (sub : Str) : Str → Bool
  | [] => sub.isEmpty
  | c :: rest => List.isPrefixOf sub (c :: rest) || isSubstring sub rest

/-- Helper for `pyTitle`: the flag records whether the previous character
was a cased (alphabetic) character. -/
def pyTitleAux : Bool → Str → Str
  | _, [] => []
  | prevCased, c :: rest =>
    if c.isAlpha then
      (if prevCased then c.toLower else c.toUpper) :: pyTitleAux true rest
    else
      c :: pyTitleAux false rest

/-- Python `str.title()` (ASCII behaviour): the first letter of every
run of letters is upper-cased, subsequent letters are lower-cased. -/
def pyTitle (s : Str) : Str := pyTitleAux false s

/-- Split on every newline character; a trailing newline yields a final
empty component (Python's plain `split("\n")`). -/
def splitOnNl : Str → List Str
  | [] => [[]]
  | c :: rest =>
    if c = '\n' then [] :: splitOnNl rest
    else
      match splitOnNl rest with
      | [] => [[c]]
      | l :: ls => (c :: l) :: ls

/-- Python `str.splitlines()` restricted to `'\n'` separators, which are
the only line separators the program ever writes: like `splitOnNl` but a
trailing newline does not produce a final empty line, and the empty
string has no lines. -/
def pySplitlines (s : Str) : List Str :=
  if s = [] then []
  else if s.getLast? = some '\n' then (splitOnNl s).dropLast
  else splitOnNl s

/-- Python `sep.join(parts)`. -/
def joinSep (sep : Str) : List Str → Str
  | [] => []
  | [x] => x
  | x :: y :: rest => x ++ sep ++ joinSep sep (y :: rest)

/-- `"\n".join(parts)`, the pervasive Markdown-assembly idiom. -/
def joinNl (parts : List Str) : Str := joinSep (str "\n") parts

/-- The decimal digit character for `n < 10`. -/
def digitChar (n : Nat) : Char := Char.ofNat (48 + n)

/-- Little-endian decimal digits of `n`; the first argument is fuel
(`n` itself suffices), keeping the recursion structural. -/
def natDigitsAux : Nat → Nat → List Char
  | 0, _ => []
  | _ + 1, 0 => []
  | fuel + 1, n + 1 => digitChar ((n + 1) % 10) :: natDigitsAux fuel ((n + 1) / 10)

/-- Decimal rendering of a natural number. -/
def natStr (n : Nat) : Str :=
  if n = 0 then [digitChar 0] else (natDigitsAux n n).reverse

/-- Left-pad with zeros to width `w` (Python `f"{n:0wd}"`). -/
def padZeros (w : Nat) (s : Str) : Str := List.replicate (w - s.length) '0' ++ s

/-- Python `f"{n:02d}"`. -/
def pad2 (n : Nat) : Str := padZeros 2 (natStr n)

/-- Python `f"{n:04d}"`. -/
def pad4 (n : Nat) : Str := padZeros 4 (natStr n)

/-- A calendar date as carried by `datetime.date`. -/
structure Date where
  year : Nat
  month : Nat
  day : Nat
deriving DecidableEq

/-- Python `date.isoformat()`: `YYYY-MM-DD`. -/
def isoDate (d : Date) : Str :=
  pad4 d.year ++ str "-" ++ pad2 d.month ++ str "-" ++ pad2 d.day

/-- `ObsidianService.parse_date`: an explicit date wins, otherwise
`datetime.now().date()` (the `today` parameter of the embedding). -/
def parseDate (today : Date) : Option Date → Date
  | some d => d
  | none => today

/-- A path relative to the vault root, as a list of components. -/
abbrev VPath := List Str

/-- The vault: an association list from relative paths to file contents.
Directories are implicit (`mkdir` has no observable effect here). -/
abbrev FS := List (VPath × Str)

/-- Read a file from the vault, `none` when absent. -/
def fsRead : FS → VPath → Option Str
  | [], _ => none
  | (q, c) :: rest, p => if q = p then some c else fsRead rest p

/-- Create or overwrite a file. -/
def fsWrite (fs : FS) (p : VPath) (c : Str) : FS :=
  (p, c) :: fs.filter (fun e => decide (e.1 ≠ p))

namespace ObsidianService

/-- `ObsidianService.write_markdown`. -/
def write_markdown (fs : FS) (p : VPath) (content : Str) : FS := fsWrite fs p content

/-- `ObsidianService.append_markdown`: existing content is right-stripped
and the new block is attached after a blank line. -/
def append_markdown (fs : FS) (p : VPath) (content : Str) : FS :=
  match fsRead fs p with
  | some existing => fsWrite fs p (pyRstrip existing ++ str "\n\n" ++ content)
  | none => fsWrite fs p content

/-- Characters kept by `ObsidianService.slugify`.  The source pattern is
the raw string `r"[^a-zA-Z0-9\\s-]"`, in which `\\` is an escaped
backslash inside the character class, so the kept characters are ASCII
alphanumerics, the backslash, the letter `s` (already alphanumeric) and
the hyphen — actual whitespace is removed, not kept. -/
def slugKeep (c : Char) : Bool := c.isAlpha || c.isDigit || c = '\\' || c = '-'

/-- The length of `dropWhile` never exceeds the length of the input. -/
theorem length_dropWhile_le {α : Type} (p : α → Bool) (l : List α) :
    (l.dropWhile p).length ≤ l.length := by
  induction l with
  | nil => simp
  | cons a t ih =>
    rw [List.dropWhile_cons]
    split
    · exact Nat.le_trans ih (Nat.le_succ _)
    · simp

/-- Fuel-driven worker for `subBackslashS`; fuel equal to the input
length always suffices, since every step consumes at least one
character. -/
def subBackslashSAux : Nat → Str → Str
  | 0, _ => []
  | _ + 1, [] => []
  | fuel + 1, c :: rest =>
    if c = '\\' ∧ rest.head? = some 's' then
      '-' :: subBackslashSAux fuel (rest.dropWhile (fun x => x = 's'))
    else c :: subBackslashSAux fuel rest

/-- The second substitution of `slugify`, `re.sub(r"\\s+", "-", ·)`: each
occurrence of a backslash followed by a maximal nonempty run of `s`
characters becomes a hyphen. -/
def subBackslashS (s : Str) : Str := subBackslashSAux s.length s

/-- `ObsidianService.slugify`. -/
def slugify (text : Str) : Str :=
  let normalized := pyLower (pyStrip (text.filter slugKeep))
  let normalized := subBackslashS normalized
  if normalized = [] then str "note" else normalized

/-- `ObsidianService.timestamp`: today rendered `%Y-%m-%d`. -/
def timestamp (today : Date) : Str := isoDate today

/-- `ObsidianService.build_frontmatter`. -/
def build_frontmatter (today : Date) (title : Str) (tags : List Str)
    (summary : Option Str) : Str :=
  let base := [str "---", str "title: " ++ title, str "date: " ++ isoDate today]
  let withTags :=
    if tags = [] then base
    else base ++ [str "tags: [" ++ joinSep (str ", ") tags ++ str "]"]
  let withSummary :=
    match summary with
    | some s => if s = [] then withTags else withTags ++ [str "summary: " ++ s]
    | none => withTags
  joinNl (withSummary ++ [str "---"])

/-- `ObsidianService.week_of_month`: `((day - 1) // 7) + 1`. -/
def week_of_month (d : Date) : Nat := (d.day - 1) / 7 + 1

/-- `ObsidianService.week_base_path`: `{year:04}/{month:02}/Week-{n}`. -/
def week_base_path (today : Date) (dateInput : Option Date) : VPath :=
  let d := parseDate today dateInput
  [pad4 d.year, pad2 d.month, str "Week-" ++ natStr (week_of_month d)]

/-- `ObsidianService.week_subpath` (the `mkdir` side effects of
`ensure_week_folders` create no files and are dropped). -/
def week_subpath (today : Date) (dateInput : Option Date) (kind : Str) : VPath :=
  week_base_path today dateInput ++ [kind]

/-- `ObsidianService.report_base_path`: `Reports/{year:04}/{month:02}`. -/
def report_base_path (today : Date) (dateInput : Option Date) : VPath :=
  let d := parseDate today dateInput
  [str "Reports", pad4 d.year, pad2 d.month]

end ObsidianService

/-- Render a relative path the way `str(Path(...))` does on POSIX. -/
def renderPath (p : VPath) : Str := joinSep (str "/") p

/-! ### Structured LLM result schemas (pydantic models in the sources) -/

/-- `notes_agent.OrganizedNote`. -/
structure OrganizedNote where
  title : Str
  summary : Str
  cleaned_markdown : Str
  tags : List Str
deriving DecidableEq

/-- `task_agent.TaskItem`. -/
structure TaskItem where
  description : Str
  due_date : Option Str
  status : Str
deriving DecidableEq

/-- `meeting_agent.MeetingSummary`. -/
structure MeetingSummary where
  title : Str
  summary : Str
  decisions : List Str
  action_items : List Str
  participants : List Str
deriving DecidableEq

/-- `progress_agent.DailyProgress`. -/
structure DailyProgress where
  summary : Str
  done : List Str
  blockers : List Str
  next_steps : List Str
  highlights : List Str
deriving DecidableEq

/-- `progress_agent.WeeklyProgress`. -/
structure WeeklyProgress where
  summary : Str
  accomplishments : List Str
  meetings : List Str
  tasks_completed : List Str
  tasks_pending : List Str
  blockers : List Str
  next_week : List Str
deriving DecidableEq

/-- `report_agent.WeeklyReport`. -/
structure WeeklyReport where
  title : Str
  summary : Str
  highlights : List Str
  challenges : List Str
  next_week : List Str
deriving DecidableEq

/-- The Python idiom `[...] or ["- None noted."]` for bullet lists. -/
def bulletsOr (items : List Str) (placeholder : Str) : List Str :=
  if items = [] then [placeholder] else items.map (fun item => str "- " ++ item)

namespace NotesAgent

/-- Category normalization from `NotesAgent.organize`. -/
def normalizeCategory (category : Str) : Str :=
  let normalized := pyTitle (pyStrip category)
  if normalized = str "Meetings" ∨ normalized = str "Learning" ∨ normalized = str "Ideas"
  then normalized else str "Learning"

/-- `NotesAgent.organize`.  `organized` is the structured LLM result for
the raw text; returns the updated vault, the note path and the title. -/
def organize (organized : OrganizedNote) (today : Date) (fs : FS)
    (category : Str) (dateValue : Option Date) : FS × VPath × Str :=
  let normalized := normalizeCategory category
  let title := pyStrip organized.title
  let frontmatter := ObsidianService.build_frontmatter today title organized.tags
    (some organized.summary)
  let body := str "# " ++ title ++ str "\n\n" ++ pyStrip organized.cleaned_markdown
  let content := frontmatter ++ str "\n\n" ++ body ++ str "\n"
  let slug := ObsidianService.slugify title
  let notesBase := ObsidianService.week_subpath today dateValue (str "Notes")
  let notePath := notesBase ++ [normalized, slug ++ str ".md"]
  (ObsidianService.write_markdown fs notePath content, notePath, title)

end NotesAgent

namespace TaskAgent

/-- One checklist line of `TaskAgent.write_tasks`. -/
def taskLine (task : TaskItem) : Str :=
  let due := match task.due_date with
    | some d => if d = [] then [] else str " (due: " ++ d ++ str ")"
    | none => []
  let checkbox := if pyLower task.status = str "done" then str "[x]" else str "[ ]"
  str "- " ++ checkbox ++ str " " ++ pyStrip task.description ++ due

/-- The relative path of the per-day tasks file. -/
def taskFilePath (today : Date) (dateValue : Option Date) : VPath :=
  let dateStr := isoDate (parseDate today dateValue)
  ObsidianService.week_subpath today dateValue (str "Tasks") ++ [dateStr ++ str "-tasks.md"]

/-- The fresh-file header lines of `TaskAgent.write_tasks`. -/
def freshHeaderLines (today : Date) (dateStr : Str) : List Str :=
  [ObsidianService.build_frontmatter today (str "Tasks " ++ dateStr) [str "tasks"] none,
   [], str "# Tasks " ++ dateStr, []]

/-- The checklist body of `TaskAgent.write_tasks`: one line per task, or
the placeholder when the extraction produced none. -/
def taskBodyLines (tasks : List TaskItem) : List Str :=
  if tasks = [] then [str "- [ ] No tasks extracted."] else tasks.map taskLine

/-- The `## Blockers` section appended on first creation. -/
def blockersLines (blockers : Option (List Str)) : List Str :=
  let blockersList := blockers.getD []
  [[], str "## Blockers"] ++
    (if blockersList = [] then [str "- None noted."]
     else blockersList.map (fun item => str "- " ++ item))

/-- `TaskAgent.write_tasks`. -/
def write_tasks (today : Date) (fs : FS) (tasks : List TaskItem)
    (dateValue : Option Date) (blockers : Option (List Str)) : FS × VPath :=
  let dateStr := isoDate (parseDate today dateValue)
  let taskFile := taskFilePath today dateValue
  let fileExists := (fsRead fs taskFile).isSome
  let lines :=
    if fileExists then [str "## Extracted Tasks (" ++ dateStr ++ str ")", []]
    else freshHeaderLines today dateStr
  let lines := lines ++ taskBodyLines tasks
  let lines := if fileExists then lines else lines ++ blockersLines blockers
  let content := pyRstrip (joinNl lines) ++ str "\n"
  let fs :=
    if fileExists then ObsidianService.append_markdown fs taskFile content
    else ObsidianService.write_markdown fs taskFile content
  (fs, taskFile)

/-- The per-line filter of `TaskAgent.list_pending_tasks`. -/
def pendingOfLine (line : Str) : Option Str :=
  let stripped := pyStrip line
  if List.isPrefixOf (str "- [ ]") stripped then some (pyStrip (stripped.drop 5))
  else none

/-- `TaskAgent.list_pending_tasks`. -/
def list_pending_tasks (today : Date) (fs : FS) (dateValue : Option Date) : List Str :=
  match fsRead fs (taskFilePath today dateValue) with
  | none => []
  | some content => (pySplitlines content).filterMap pendingOfLine

end TaskAgent

namespace MeetingAgent

/-- `MeetingAgent.summarize`.  `summary` is the structured LLM result;
returns the updated vault, the meeting note path, the tasks file path
and the number of cascaded tasks. -/
def summarize (summary : MeetingSummary) (today : Date) (fs : FS)
    (dateValue : Option Date) : FS × VPath × VPath × Nat :=
  let title := pyStrip summary.title
  let frontmatter := ObsidianService.build_frontmatter today title [str "meeting"]
    (some summary.summary)
  let lines :=
    [frontmatter, [], str "# " ++ title, [], str "## Summary", pyStrip summary.summary,
     [], str "## Decisions"] ++
    (if summary.decisions = [] then [str "- None recorded."]
     else summary.decisions.map (fun item => str "- " ++ item)) ++
    [[], str "## Action Items"] ++
    (if summary.action_items = [] then [str "- None recorded."]
     else summary.action_items.map (fun item => str "- " ++ item)) ++
    (if summary.participants = [] then []
     else [[], str "## Participants"] ++ summary.participants.map (fun p => str "- " ++ p))
  let content := pyRstrip (joinNl lines) ++ str "\n"
  let slug := ObsidianService.slugify title
  let meetingPath := ObsidianService.week_subpath today dateValue (str "Meetings") ++
    [slug ++ str ".md"]
  let fs := ObsidianService.write_markdown fs meetingPath content
  let tasks := summary.action_items.map
    (fun item => TaskItem.mk item none (str "todo"))
  let (fs, taskFile) := TaskAgent.write_tasks today fs tasks dateValue none
  (fs, meetingPath, taskFile, tasks.length)

end MeetingAgent

namespace ProgressAgent

/-- The daily-progress section block of `ProgressAgent.log_daily`
(everything below the per-file header). -/
def sectionLines (daily : DailyProgress) : List Str :=
  [str "## Summary", pyStrip daily.summary, [], str "## Highlights"] ++
  bulletsOr daily.highlights (str "- None noted.") ++
  [[], str "## Done"] ++ bulletsOr daily.done (str "- None noted.") ++
  [[], str "## Blockers"] ++ bulletsOr daily.blockers (str "- None noted.") ++
  [[], str "## Next Steps"] ++ bulletsOr daily.next_steps (str "- None noted.")

/-- The relative path of the daily progress log. -/
def dailyLogPath (today : Date) (dateValue : Option Date) : VPath :=
  let dateStr := isoDate (parseDate today dateValue)
  ObsidianService.week_subpath today dateValue (str "Progress") ++
    [dateStr ++ str "-daily-progress.md"]

/-- The relative path of the weekly summary file. -/
def weeklySummaryPath (today : Date) (dateValue : Option Date) : VPath :=
  ObsidianService.week_base_path today (some (parseDate today dateValue)) ++
    [str "Progress", str "weekly-summary.md"]

/-- `ProgressAgent.generate_weekly`.  `weekly` is the structured LLM
result built from the week's context. -/
def generate_weekly (weekly : WeeklyProgress) (today : Date) (fs : FS)
    (dateValue : Option Date) : FS × VPath :=
  let weeklyPath := weeklySummaryPath today dateValue
  let sections :=
    [str "# Weekly Progress Summary", [], str "## Summary", pyStrip weekly.summary,
     [], str "## Accomplishments"] ++
    bulletsOr weekly.accomplishments (str "- None noted.") ++
    [[], str "## Meetings"] ++ bulletsOr weekly.meetings (str "- None noted.") ++
    [[], str "## Tasks Completed"] ++ bulletsOr weekly.tasks_completed (str "- None noted.") ++
    [[], str "## Tasks Pending"] ++ bulletsOr weekly.tasks_pending (str "- None noted.") ++
    [[], str "## Blockers"] ++ bulletsOr weekly.blockers (str "- None noted.") ++
    [[], str "## Next Week"] ++ bulletsOr weekly.next_week (str "- None noted.")
  let frontmatter := ObsidianService.build_frontmatter today
    (str "Weekly Progress Summary") [str "progress", str "weekly"] none
  let content := pyRstrip (joinNl ([frontmatter, []] ++ sections)) ++ str "\n"
  (ObsidianService.write_markdown fs weeklyPath content, weeklyPath)

/-- `ProgressAgent.log_daily`.  `daily` and `weekly` are the structured
LLM results; the `increment_stat` bookkeeping touches only the stats
table and is not modelled.  Returns the updated vault, the daily log
path and the weekly summary path. -/
def log_daily (daily : DailyProgress) (weekly : WeeklyProgress) (today : Date)
    (fs : FS) (dateValue : Option Date) : FS × VPath × VPath :=
  let dateStr := isoDate (parseDate today dateValue)
  let logPath := dailyLogPath today dateValue
  let fs :=
    if (fsRead fs logPath).isSome then
      let timestamp := ObsidianService.timestamp today
      let updateBlock := [str "## Update " ++ timestamp, []] ++ sectionLines daily
      let content := pyRstrip (joinNl updateBlock) ++ str "\n"
      ObsidianService.append_markdown fs logPath content
    else
      let frontmatter := ObsidianService.build_frontmatter today
        (str "Daily Progress " ++ dateStr) [str "progress", str "daily"] none
      let headerLines := [frontmatter, [], str "# Daily Progress " ++ dateStr, []]
      let content := pyRstrip (joinNl (headerLines ++ sectionLines daily)) ++ str "\n"
      ObsidianService.write_markdown fs logPath content
  let (fs, weeklyPath) := generate_weekly weekly today fs dateValue
  (fs, logPath, weeklyPath)

end ProgressAgent

namespace ReportAgent

/-- `ReportAgent.generate_weekly`.  `report` is the structured LLM result
(the `_load_daily_logs` reads feed only the LLM prompt and are dropped);
returns the updated vault, the report path and the week-ending date. -/
def generate_weekly (report : WeeklyReport) (today : Date) (fs : FS)
    (dateValue : Option Date) : FS × VPath × Date :=
  let weekEnding := parseDate today dateValue
  let title :=
    if report.title = [] then str "Weekly Report " ++ isoDate weekEnding
    else report.title
  let frontmatter := ObsidianService.build_frontmatter today title
    [str "report", str "weekly"] (some report.summary)
  let lines :=
    [frontmatter, [], str "# " ++ title, [], str "## Summary", pyStrip report.summary,
     [], str "## Highlights"] ++
    bulletsOr report.highlights (str "- None noted.") ++
    [[], str "## Challenges"] ++ bulletsOr report.challenges (str "- None noted.") ++
    [[], str "## Next Week"] ++ bulletsOr report.next_week (str "- None noted.")
  let content := pyRstrip (joinNl lines) ++ str "\n"
  let reportBase := ObsidianService.report_base_path today (some weekEnding)
  let reportPath := reportBase ++ [isoDate weekEnding ++ str "-weekly-report.md"]
  (ObsidianService.write_markdown fs reportPath content, reportPath, weekEnding)

end ReportAgent

/-- Does `s` end with `suffix`? -/
def endsWithStr (suffix s : Str) : Bool := List.isPrefixOf suffix.reverse s.reverse

/-- Strict character order as a Bool. -/
def charLtB (a b : Char) : Bool := decide (a < b)

/-- Lexicographic strict order on strings. -/
def strLtB : Str → Str → Bool
  | [], [] => false
  | [], _ :: _ => true
  | _ :: _, [] => false
  | a :: as, b :: bs => if a = b then strLtB as bs else charLtB a b

/-- Lexicographic order on paths (component-wise), mirroring how
`sorted()` orders `Path` values by their string form. -/
def pathLeB : VPath → VPath → Bool
  | [], _ => true
  | _ :: _, [] => false
  | a :: as, b :: bs => if a = b then pathLeB as bs else strLtB a b

/-- Insertion into a sorted list. -/
def insertSorted {α : Type} (le : α → α → Bool) (x : α) : List α → List α
  | [] => [x]
  | y :: ys => if le x y then x :: y :: ys else y :: insertSorted le x ys

/-- Insertion sort (a stable sort, like Python's `sorted`). -/
def sortByB {α : Type} (le : α → α → Bool) : List α → List α
  | [] => []
  | x :: xs => insertSorted le x (sortByB le xs)

namespace ReaderService

/-- `ReaderService._read_folder`: every `.md` file under the folder
except `weekly-summary.md`, sorted by path, each rendered as a `##`-
headed block. -/
def read_folder (fs : FS) (folder : VPath) : Str :=
  let name := fun (e : VPath × Str) => e.1.getLastD []
  let files := fs.filter (fun e =>
    List.isPrefixOf folder e.1 && decide (folder.length < e.1.length) &&
    endsWithStr (str ".md") (name e) &&
    decide (pyLower (name e) ≠ str "weekly-summary.md"))
  let files := sortByB (fun a b => pathLeB a.1 b.1) files
  joinSep (str "\n\n") (files.map (fun e => str "## " ++ name e ++ str "\n" ++ e.2))

/-- The Python idiom `value or "None found."`. -/
def orNoneFound (s : Str) : Str := if s = [] then str "None found." else s

/-- `ReaderService.build_read_context`. -/
def build_read_context (today : Date) (fs : FS) (dateValue : Option Date) : Str :=
  let d := parseDate today dateValue
  let dateStr := isoDate d
  let weekBase := ObsidianService.week_base_path today (some d)
  let daily := (fsRead fs (weekBase ++ [str "Progress", dateStr ++ str ".md"])).getD []
  let tasks := (fsRead fs (weekBase ++ [str "Tasks", dateStr ++ str "-tasks.md"])).getD []
  let meetings := read_folder fs (weekBase ++ [str "Meetings"])
  let notes := read_folder fs (weekBase ++ [str "Notes"])
  pyStrip (joinNl
    [str "Date: " ++ dateStr, [],
     str "Daily progress log:", orNoneFound daily, [],
     str "Tasks for the day:", orNoneFound tasks, [],
     str "Meetings this week:", orNoneFound meetings, [],
     str "Notes this week:", orNoneFound notes])

end ReaderService

/-! ### Command router (`app/main.py`) -/

/-- `brain.BrainDecision`.  Confidence is modelled as a rational. -/
structure BrainDecision where
  intent : Str
  confidence : ℚ
  action : Str
  reason : Str
  question : Option Str
deriving DecidableEq

/-- The routing-relevant fields of `schemas.CommandRequest`. -/
structure CommandRequest where
  text : Str
  date : Option Date
deriving DecidableEq

/-- `schemas.CommandResponse`. -/
structure CommandResponse where
  status : Str
  actions : List Str
  files : List Str
  message : Str
  intent : Option Str
  action : Option Str
  reason : Option Str
  notice : Option Str
deriving DecidableEq

/-- A stored pending payload as produced by `_build_pending_payload`. -/
structure PendingPayload where
  action_type : Str
  text : Str
  date : Option Date
deriving DecidableEq

/-- One `agent_state` row as surfaced by `MemoryService.get_state`. -/
structure AgentState where
  last_intent : Option Str
  pending_action : Option Str
  pending_payload : Option PendingPayload
  conversation_mode : Option Str
deriving DecidableEq

/-- The all-`None` state: what `get_state` reports when no row exists,
i.e. also the state right after `MemoryService.clear_state`. -/
def AgentState.empty : AgentState := ⟨none, none, none, none⟩

/-- The results of the effectful LLM calls a single request can make.
These values are chosen by the environment, not by the program. -/
structure Oracles where
  decide : Except Str BrainDecision
  invoke : Str → Str → Except Str Str
  respond : Except Str Str
  organized : OrganizedNote
  meeting : MeetingSummary
  extracted : List TaskItem
  daily : DailyProgress
  weekly : WeeklyProgress
  report : WeeklyReport

/-- What one `_handle_message` call produces: the HTTP response, the
session's agent state afterwards, and the vault afterwards. -/
structure HandlerOutcome where
  response : CommandResponse
  state : AgentState
  fs : FS

/-- `_llm_error_message`, keyed on the exception's string rendering. -/
def llm_error_message (excText : Str) : Str :=
  if isSubstring (str "NOT_FOUND") excText && isSubstring (str "models/") excText then
    str "Selected model is not available. Choose another model from the selector."
  else if isSubstring (str "OPENROUTER_API_KEY") excText then
    str "OpenRouter API key missing. Set OPENROUTER_API_KEY in your environment or in .env.local, then select the OpenRouter model again."
  else if isSubstring (str "getaddrinfo failed") excText || isSubstring (str "ConnectError") excText then
    str "Network error while contacting the model API. Check your internet connection."
  else
    str "LLM request failed. Please try again or change the model."

/-- `_route_action`: the keyword guess stored in a pending payload. -/
def route_action (text : Str) : Str :=
  let lower := pyLower text
  if isSubstring (str "meeting") lower || isSubstring (str "advisor") lower ||
      isSubstring (str "sync") lower then str "meeting_summarize"
  else if isSubstring (str "report") lower then str "weekly_report"
  else if isSubstring (str "progress") lower || isSubstring (str "daily") lower then
    str "daily_progress"
  else if isSubstring (str "task") lower || isSubstring (str "todo") lower then
    str "tasks_extract"
  else if isSubstring (str "idea") lower || isSubstring (str "brainstorm") lower then
    str "notes_ideas"
  else str "notes_learning"

/-- `_build_pending_payload`. -/
def build_pending_payload (text : Str) (dateValue : Option Date) : PendingPayload :=
  ⟨route_action text, text, dateValue⟩

/-- Marker for the section being filled in `_parse_progress_text`. -/
inductive ProgressSection
  | done
  | blockers
  | next
deriving DecidableEq

/-- Loop body of `_parse_progress_text`. -/
def parseProgressAux : Option ProgressSection → List Str →
    List Str × List Str × List Str
  | _, [] => ([], [], [])
  | current, rawLine :: rest =>
    let line := pyStrip rawLine
    if line = [] then parseProgressAux current rest
    else
      let lower := pyLower line
      if List.isPrefixOf (str "done:") lower then
        let item := pyStrip (line.drop 5)
        let (d, b, n) := parseProgressAux (some ProgressSection.done) rest
        (if item = [] then d else item :: d, b, n)
      else if List.isPrefixOf (str "blockers:") lower then
        let item := pyStrip (line.drop 9)
        let (d, b, n) := parseProgressAux (some ProgressSection.blockers) rest
        (d, if item = [] then b else item :: b, n)
      else if List.isPrefixOf (str "next:") lower ||
          List.isPrefixOf (str "next steps:") lower then
        let item := pyStrip ((line.dropWhile (fun c => decide (c ≠ ':'))).drop 1)
        let (d, b, n) := parseProgressAux (some ProgressSection.next) rest
        (d, b, if item = [] then n else item :: n)
      else
        let (d, b, n) := parseProgressAux current rest
        match current with
        | some ProgressSection.done => (line :: d, b, n)
        | some ProgressSection.blockers => (d, line :: b, n)
        | some ProgressSection.next => (d, b, line :: n)
        | none => (line :: d, b, n)

/-- `_parse_progress_text`. -/
def parse_progress_text (text : Str) : List Str × List Str × List Str :=
  parseProgressAux none (pySplitlines text)

/-- The ASCII apostrophe. -/
def apos : Char := Char.ofNat 39

/-- The fixed confirmation-phrase list of `is_confirmation`. -/
def confirmationPhrases : List Str :=
  [str "yes", str "y", str "sure", str "do it", str "do it.", str "save it",
   str "save", str "ok", str "okay", str "please do", str "go ahead", str "confirm"]

/-- `is_confirmation` (nested in `_handle_message`):
`message.strip().lower() in confirmations`. -/
def is_confirmation (message : Str) : Bool :=
  decide (pyLower (pyStrip message) ∈ confirmationPhrases)

/-- The `read_only_triggers` list of `_handle_message`. -/
def read_only_triggers : List Str :=
  [str "what did i achieve", str "what did i work on", str "summarize my progress",
   str "what have i done", str "progress today",
   str "today" ++ (apos :: str "s progress"), str "status update"]

/-- The `write_verbs` list of `_handle_message`. -/
def write_verbs : List Str :=
  [str "save", str "log", str "write", str "organize", str "create",
   str "update", str "extract", str "summarize", str "generate"]

/-- The heuristic override applied to `Brain.decide`'s output: a message
containing a read-only trigger phrase is forced to `read_only` / `talk`. -/
def effectiveDecision (lower : Str) (d : BrainDecision) : BrainDecision :=
  if read_only_triggers.any (fun t => isSubstring t lower) then
    { d with intent := str "read_only", action := str "talk" }
  else d

/-- The system prompt of the read-only branch. -/
def roSystemPrompt : Str :=
  str "You are an internship companion. Answer reflective or status questions using only the provided data. Do not mention file operations or imply changes."

/-- `_execute_pending_action`: replay the stored pending payload through
the dispatch table.  Returns the response and the updated vault. -/
def executePendingAction (O : Oracles) (today : Date) (payload : CommandRequest)
    (state : AgentState) (fs : FS) : CommandResponse × FS :=
  let actionType : Option Str := (state.pending_payload).map (fun pp => pp.action_type)
  -- the replayed raw text reaches only the agents' LLM prompts
  let _text := match state.pending_payload with
    | some pp => pp.text
    | none => payload.text
  let dateValue := match state.pending_payload with
    | some pp => pp.date
    | none => payload.date
  if actionType = some (str "meeting_summarize") then
    let (fs, meetingPath, taskFile, tasksCreated) :=
      MeetingAgent.summarize O.meeting today fs dateValue
    let actions := [str "meeting_summarized"] ++
      (if tasksCreated ≠ 0 then [str "tasks_created"] else [])
    (⟨str "success", actions, [renderPath meetingPath, renderPath taskFile],
      str "Meeting summarized and tasks updated for the selected week.",
      some (str "write_command"), some (str "act"), some (str "Confirmed permission"),
      none⟩, fs)
  else if actionType = some (str "weekly_report") then
    let (fs, reportPath, weekEnding) := ReportAgent.generate_weekly O.report today fs dateValue
    (⟨str "success", [str "weekly_report_generated"], [renderPath reportPath],
      str "Weekly report generated for week ending " ++ isoDate weekEnding ++ str ".",
      some (str "write_command"), some (str "act"), some (str "Confirmed permission"),
      none⟩, fs)
  else if actionType = some (str "daily_progress") then
    -- `_parse_progress_text text` feeds only the daily LLM prompt here
    let (fs, logPath, weeklyPath) := ProgressAgent.log_daily O.daily O.weekly today fs dateValue
    (⟨str "success", [str "progress_logged", str "weekly_progress_generated"],
      [renderPath logPath, renderPath weeklyPath],
      str "Daily progress logged and weekly summary updated.",
      some (str "write_command"), some (str "act"), some (str "Confirmed permission"),
      none⟩, fs)
  else if actionType = some (str "tasks_extract") then
    let (fs, taskFile) := TaskAgent.write_tasks today fs O.extracted dateValue none
    (⟨str "success", [str "tasks_created"], [renderPath taskFile],
      str "Tasks extracted and saved for the selected week.",
      some (str "write_command"), some (str "act"), some (str "Confirmed permission"),
      none⟩, fs)
  else
    let category := if actionType = some (str "notes_ideas") then str "Ideas"
      else str "Learning"
    let (fs, notePath, title) := NotesAgent.organize O.organized today fs category dateValue
    (⟨str "success", [str "notes_organized"], [renderPath notePath],
      str "Note organized for " ++ title ++ str ".",
      some (str "write_command"), some (str "act"), some (str "Confirmed permission"),
      none⟩, fs)

/-- `_handle_message` of `app/main.py`, from the point where the active
profile and session are resolved (no per-request model override). -/
def handle_message (O : Oracles) (today : Date) (payload : CommandRequest)
    (state : AgentState) (fs : FS) : HandlerOutcome :=
  let text := pyStrip payload.text
  let lower := pyLower text
  if state.pending_action.isSome then
    if is_confirmation text then
      let (resp, fs) := executePendingAction O today payload state fs
      ⟨resp, AgentState.empty, fs⟩
    else
      ⟨⟨str "success", [], [],
        str "I’m waiting for your confirmation. Should I proceed and write to your vault?",
        state.last_intent, some (str "ask"), some (str "Awaiting confirmation"), none⟩,
       state, fs⟩
  else if isSubstring (str "start a new internship") lower ||
      isSubstring (str "new internship") lower then
    -- a new profile is created and activated; the history/state rows it
    -- clears belong to the new profile's fresh session
    ⟨⟨str "success", [], [],
      str "Started a new internship profile. You can tell me the internship name and start date.",
      some (str "conversation"), some (str "talk"), some (str "Profile reset"), none⟩,
     state, fs⟩
  else if isSubstring (str "reset this conversation") lower ||
      isSubstring (str "reset conversation") lower then
    ⟨⟨str "success", [], [],
      str "Conversation memory cleared for the active profile.",
      some (str "conversation"), some (str "talk"), some (str "Memory reset"), none⟩,
     AgentState.empty, fs⟩
  else
    match O.decide with
    | Except.error e =>
      ⟨⟨str "error", [], [], llm_error_message e,
        some (str "conversation"), some (str "talk"), some (str "LLM unavailable"), none⟩,
       state, fs⟩
    | Except.ok d0 =>
      let decision := effectiveDecision lower d0
      let state1 : AgentState :=
        ⟨some decision.intent, none, none, some decision.action⟩
      let hasWriteVerbs := write_verbs.any (fun v => isSubstring v lower)
      if decision.intent = str "read_only" then
        let context := ReaderService.build_read_context today fs payload.date
        let usr := str "Question: " ++ text ++ str "\n\nExisting data:\n" ++ context
        match O.invoke roSystemPrompt usr with
        | Except.error e =>
          ⟨⟨str "error", [], [], llm_error_message e,
            some decision.intent, some (str "talk"), some (str "LLM unavailable"), none⟩,
           state1, fs⟩
        | Except.ok reply =>
          ⟨⟨str "success", [], [], reply, some decision.intent, some (str "talk"),
            some decision.reason, some (str "Answered from existing internship data")⟩,
           state1, fs⟩
      else if decision.action = str "talk" then
        match O.respond with
        | Except.error e =>
          ⟨⟨str "error", [], [], llm_error_message e,
            some decision.intent, some decision.action, some (str "LLM unavailable"), none⟩,
           state1, fs⟩
        | Except.ok reply =>
          ⟨⟨str "success", [], [], reply, some decision.intent, some decision.action,
            some decision.reason, none⟩, state1, fs⟩
      else if decision.action = str "ask" ∨
          (decision.action = str "act" ∧ decision.confidence < (0.6 : ℚ)) then
        let question := match decision.question with
          | some q =>
            if q = [] then str "Do you want me to take an action, or just discuss?" else q
          | none => str "Do you want me to take an action, or just discuss?"
        ⟨⟨str "success", [], [], question, some decision.intent, some (str "ask"),
          some decision.reason, none⟩, state1, fs⟩
      else if ¬ decision.intent = str "write_command" ∨ ¬ hasWriteVerbs then
        let pendingState : AgentState :=
          ⟨none, some (str "write"), some (build_pending_payload text payload.date),
           some (str "ask")⟩
        ⟨⟨str "success", [], [],
          str "Do you want me to save or update anything in your vault, or just answer in chat?",
          some decision.intent, some (str "ask"),
          some (str "Explicit write permission required"), none⟩,
         pendingState, fs⟩
      else if isSubstring (str "pending tasks") lower || isSubstring (str "not done") lower ||
          isSubstring (str "unfinished tasks") lower || isSubstring (str "open tasks") lower then
        let pending := TaskAgent.list_pending_tasks today fs payload.date
        let message :=
          if ¬ pending = [] then
            str "Pending tasks:\n" ++ joinNl (pending.map (fun item => str "- " ++ item))
          else str "No pending tasks found for the selected day."
        ⟨⟨str "success", [str "tasks_listed"], [], message, some decision.intent,
          some decision.action, some decision.reason, none⟩, state1, fs⟩
      else if isSubstring (str "meeting") lower || isSubstring (str "advisor") lower ||
          isSubstring (str "sync") lower then
        let (fs, meetingPath, taskFile, tasksCreated) :=
          MeetingAgent.summarize O.meeting today fs payload.date
        let actions := [str "meeting_summarized"] ++
          (if tasksCreated ≠ 0 then [str "tasks_created"] else [])
        ⟨⟨str "success", actions, [renderPath meetingPath, renderPath taskFile],
          str "Meeting summarized and tasks updated for the selected week.",
          some decision.intent, some decision.action, some decision.reason, none⟩,
         state1, fs⟩
      else if isSubstring (str "report") lower then
        let (fs, reportPath, weekEnding) :=
          ReportAgent.generate_weekly O.report today fs payload.date
        ⟨⟨str "success", [str "weekly_report_generated"], [renderPath reportPath],
          str "Weekly report generated for week ending " ++ isoDate weekEnding ++ str ".",
          some decision.intent, some decision.action, some decision.reason, none⟩,
         state1, fs⟩
      else if isSubstring (str "progress") lower || isSubstring (str "daily") lower then
        let (_, blockers, _) := parse_progress_text text
        let (fs, logPath, weeklyPath) :=
          ProgressAgent.log_daily O.daily O.weekly today fs payload.date
        let message :=
          str "Progress files created. You can review the daily log and weekly summary." ++
          (if blockers = [] then
            str " Share any blockers to keep the tasks follow-up accurate."
          else [])
        ⟨⟨str "success", [str "progress_logged", str "weekly_progress_generated"],
          [renderPath logPath, renderPath weeklyPath], message,
          some decision.intent, some decision.action, some decision.reason, none⟩,
         state1, fs⟩
      else if isSubstring (str "task") lower || isSubstring (str "todo") lower then
        let (fs, taskFile) := TaskAgent.write_tasks today fs O.extracted payload.date none
        ⟨⟨str "success", [str "tasks_created"], [renderPath taskFile],
          str "Tasks extracted and saved for the selected week.",
          some decision.intent, some decision.action, some decision.reason, none⟩,
         state1, fs⟩
      else
        let category :=
          if isSubstring (str "idea") lower || isSubstring (str "brainstorm") lower then
            str "Ideas"
          else str "Learning"
        let (fs, notePath, title) :=
          NotesAgent.organize O.organized today fs category payload.date
        ⟨⟨str "success", [str "notes_organized"], [renderPath notePath],
          str "Note organized for " ++ title ++ str ".",
          some decision.intent, some decision.action, some decision.reason, none⟩,
         state1, fs⟩

/-! ### Profile persistence (`app/services/profile_service.py`) -/

/-- One row of the `profiles` table (`profile_id` is the PRIMARY KEY). -/
structure ProfileRow where
  profile_id : Str
  name : Option Str
  internship_name : Str
  start_date : Option Str
  vault_root : Str
  active : Nat
deriving DecidableEq

/-- The `profiles` table. -/
abbrev ProfilesTable := List ProfileRow

namespace ProfileService

/-- `UPDATE profiles SET active = 0`. -/
def deactivateAll (db : ProfilesTable) : ProfilesTable :=
  db.map (fun r => { r with active := 0 })

/-- `ProfileService.create_profile`: when activating, first deactivate
every row, then insert the new row. -/
def create_profile (db : ProfilesTable) (newId : Str) (internshipName : Str)
    (vaultRoot : Str) (name : Option Str) (startDate : Option Str)
    (activate : Bool) : ProfilesTable :=
  let db := if activate then deactivateAll db else db
  db ++ [⟨newId, name, internshipName, startDate, vaultRoot, if activate then 1 else 0⟩]

/-- `ProfileService.switch_profile`: when the id exists, set every row
inactive, then activate the rows matching the id; otherwise no change. -/
def switch_profile (db : ProfilesTable) (profileId : Str) : ProfilesTable :=
  if db.any (fun r => decide (r.profile_id = profileId)) then
    (deactivateAll db).map
      (fun r => if r.profile_id = profileId then { r with active := 1 } else r)
  else db

/-- `ProfileService.update_profile`: overwrite only the supplied profile
fields of the matching rows; with no fields supplied nothing is written.
The `active` column is never among the updatable fields. -/
def update_profile (db : ProfilesTable) (profileId : Str) (name : Option Str)
    (internshipName : Option Str) (startDate : Option Str)
    (vaultRoot : Option Str) : ProfilesTable :=
  if name = none ∧ internshipName = none ∧ startDate = none ∧ vaultRoot = none then db
  else
    db.map (fun r =>
      if r.profile_id = profileId then
        { r with
          name := name.or r.name,
          internship_name := internshipName.getD r.internship_name,
          start_date := startDate.or r.start_date,
          vault_root := vaultRoot.getD r.vault_root }
      else r)

/-- The spec invariant: at most one profile row has `active = 1`. -/
def atMostOneActive (db : ProfilesTable) : Prop :=
  db.countP (fun r => decide (r.active = 1)) ≤ 1

end ProfileService

/-! ### Keyword dispatch priority of the write branch -/

/-- The keyword test of the `n`-th write-dispatch branch of
`_handle_message`, in source order; every message reaches the notes
fallback (level 5). -/
def kwTest : Nat → Str → Bool
  | 0, lower =>
    isSubstring (str "pending tasks") lower || isSubstring (str "not done") lower ||
    isSubstring (str "unfinished tasks") lower || isSubstring (str "open tasks") lower
  | 1, lower =>
    isSubstring (str "meeting") lower || isSubstring (str "advisor") lower ||
    isSubstring (str "sync") lower
  | 2, lower => isSubstring (str "report") lower
  | 3, lower => isSubstring (str "progress") lower || isSubstring (str "daily") lower
  | 4, lower => isSubstring (str "task") lower || isSubstring (str "todo") lower
  | _, _ => true

/-- The first write-dispatch branch whose keyword test passes. -/
def dispatchLevel (lower : Str) : Nat :=
  if kwTest 0 lower then 0
  else if kwTest 1 lower then 1
  else if kwTest 2 lower then 2
  else if kwTest 3 lower then 3
  else if kwTest 4 lower then 4
  else 5

/-- The `actions` tags the `n`-th write-dispatch branch records. -/
def levelActions (O : Oracles) : Nat → List Str
  | 0 => [str "tasks_listed"]
  | 1 => [str "meeting_summarized"] ++
      (if O.meeting.action_items.length ≠ 0 then [str "tasks_created"] else [])
  | 2 => [str "weekly_report_generated"]
  | 3 => [str "progress_logged", str "weekly_progress_generated"]
  | 4 => [str "tasks_created"]
  | _ => [str "notes_organized"]

/-! ### Toolbox lemmas about the string model -/

theorem splitOnNl_ne_nil (s : Str) : splitOnNl s ≠ [] := by
  match s with
  | [] => simp [splitOnNl]
  | c :: rest =>
    rw [splitOnNl]
    split
    · simp
    · split <;> simp

theorem splitOnNl_append_cons (x y : Str) (h : '\n' ∉ x) :
    splitOnNl (x ++ '\n' :: y) = x :: splitOnNl y := by
  induction x with
  | nil => simp [splitOnNl]
  | cons c t ih =>
    have hc : ¬ c = '\n' := by
      intro hcn
      exact h (hcn ▸ List.mem_cons_self c t)
    have ht : '\n' ∉ t := fun hm => h (List.mem_cons_of_mem c hm)
    rw [List.cons_append, splitOnNl, if_neg hc, ih ht]

theorem joinNl_cons_cons (a b : Str) (rest : List Str) :
    joinNl (a :: b :: rest) = a ++ '\n' :: joinNl (b :: rest) := by
  show a ++ str "\n" ++ joinSep (str "\n") (b :: rest) = _
  simp [joinNl, str, List.append_assoc]

theorem joinNl_cons (a : Str) (L : List Str) :
    joinNl (a :: L) = a ++ (if L = [] then [] else '\n' :: joinNl L) := by
  match L with
  | [] => simp [joinNl, joinSep]
  | b :: ts =>
    rw [joinNl_cons_cons, if_neg (by simp : ¬ (b :: ts : List Str) = [])]

theorem joinNl_flatten (A rest : List Str) (hA : A ≠ []) :
    joinNl (joinNl A :: rest) = joinNl (A ++ rest) := by
  induction A with
  | nil => exact absurd rfl hA
  | cons a t ih =>
    cases t with
    | nil => rfl
    | cons b ts =>
      have ihr := ih (by simp)
      cases rest with
      | nil =>
        show joinNl [joinNl (a :: b :: ts)] = joinNl ((a :: b :: ts) ++ [])
        rw [List.append_nil]
        rfl
      | cons r rs =>
        simp only [List.cons_append]
        rw [joinNl_cons_cons a b (ts ++ r :: rs), ← List.cons_append, ← ihr]
        rw [joinNl_cons_cons (joinNl (b :: ts)) r rs]
        rw [joinNl_cons_cons a b ts]
        rw [joinNl_cons_cons (a ++ '\n' :: joinNl (b :: ts)) r rs]
        simp [List.append_assoc]

theorem splitOnNl_joinNl_concat (L : List Str) (hL : L ≠ [])
    (h : ∀ l ∈ L, '\n' ∉ l) :
    splitOnNl (joinNl L ++ ['\n']) = L ++ [[]] := by
  induction L with
  | nil => exact absurd rfl hL
  | cons x t ih =>
    match t with
    | [] =>
      have hx : '\n' ∉ x := h x (List.mem_cons_self x [])
      show splitOnNl (x ++ '\n' :: []) = [x, []]
      rw [splitOnNl_append_cons x [] hx]
      rfl
    | b :: ts =>
      have hx : '\n' ∉ x := h x (List.mem_cons_self x _)
      have ht : ∀ l ∈ b :: ts, '\n' ∉ l := fun l hm => h l (List.mem_cons_of_mem x hm)
      rw [joinNl_cons_cons x b ts, List.append_assoc, List.cons_append]
      rw [splitOnNl_append_cons x _ hx]
      rw [ih (by simp) ht]
      rfl

theorem pySplitlines_joinNl_concat (L : List Str) (hL : L ≠ [])
    (h : ∀ l ∈ L, '\n' ∉ l) :
    pySplitlines (joinNl L ++ ['\n']) = L := by
  have hne : joinNl L ++ ['\n'] ≠ [] := by simp
  have hlast : (joinNl L ++ ['\n']).getLast? = some '\n' := List.getLast?_concat _
  rw [pySplitlines, if_neg hne, if_pos hlast, splitOnNl_joinNl_concat L hL h,
    List.dropLast_concat]

theorem dropWhile_idem {α : Type} (p : α → Bool) (l : List α) :
    List.dropWhile p (List.dropWhile p l) = List.dropWhile p l := by
  induction l with
  | nil => rfl
  | cons a t ih =>
    rw [List.dropWhile_cons]
    split
    · exact ih
    · rw [List.dropWhile_cons]
      simp_all

theorem pyLstrip_idem (s : Str) : pyLstrip (pyLstrip s) = pyLstrip s :=
  dropWhile_idem _ s

theorem pyRstrip_idem (s : Str) : pyRstrip (pyRstrip s) = pyRstrip s := by
  simp [pyRstrip, dropWhile_idem]

theorem pyRstrip_prefix (s : Str) : pyRstrip s <+: s := by
  have h := List.dropWhile_suffix (l := s.reverse) Char.isWhitespace
  have := List.reverse_prefix.mpr h
  simpa [pyRstrip] using this

theorem pyRstrip_append_left (x y : Str) (h : pyRstrip y ≠ []) :
    pyRstrip (x ++ y) = x ++ pyRstrip y := by
  have hd : List.dropWhile Char.isWhitespace y.reverse ≠ [] := by
    intro hnil
    exact h (by simp [pyRstrip, hnil])
  simp only [pyRstrip, List.reverse_append, List.dropWhile_append]
  rw [if_neg (by simpa [List.isEmpty_iff] using hd)]
  simp

theorem pyRstrip_append_right (x y : Str) (h : pyRstrip y = []) :
    pyRstrip (x ++ y) = pyRstrip x := by
  have hd : List.dropWhile Char.isWhitespace y.reverse = [] := by
    have := congrArg List.reverse h
    simpa [pyRstrip] using this
  simp only [pyRstrip, List.reverse_append, List.dropWhile_append]
  rw [if_pos (by simpa [List.isEmpty_iff] using hd)]

theorem pyRstrip_all_not_ws (y : Str) (h : ∀ c ∈ y, c.isWhitespace = false) :
    pyRstrip y = y := by
  rw [pyRstrip]
  match hy : y.reverse with
  | [] =>
    have : y = [] := by simpa using congrArg List.reverse hy
    simp [this]
  | c :: t =>
    have hc : c ∈ y := by
      have : c ∈ y.reverse := by rw [hy]; exact List.mem_cons_self c t
      simpa using this
    rw [List.dropWhile_cons, if_neg (by simp [h c hc])]
    rw [← hy, List.reverse_reverse]

theorem pyRstrip_append_not_ws (x y : Str) (hy : y ≠ [])
    (h : ∀ c ∈ y, c.isWhitespace = false) : pyRstrip (x ++ y) = x ++ y := by
  rw [pyRstrip_append_left x y (by rw [pyRstrip_all_not_ws y h]; exact hy),
    pyRstrip_all_not_ws y h]

theorem head_not_ws_of_dropWhile_fix (c : Char) (l : Str)
    (h : List.dropWhile Char.isWhitespace (c :: l) = c :: l) :
    Char.isWhitespace c = false := by
  by_contra hc
  have hctrue : Char.isWhitespace c = true := by
    revert hc
    cases Char.isWhitespace c <;> simp
  rw [List.dropWhile_cons, if_pos hctrue] at h
  have hlen := congrArg List.length h
  have hle := ObsidianService.length_dropWhile_le Char.isWhitespace l
  simp at hlen
  omega

theorem pyLstrip_fix_of_rstrip (x : Str) (hxfix : pyLstrip x = x) :
    pyLstrip (pyRstrip x) = pyRstrip x := by
  match hpre : pyRstrip x with
  | [] => simp [pyLstrip]
  | c :: t =>
    obtain ⟨u, hu⟩ := pyRstrip_prefix x
    rw [hpre] at hu
    rw [← hu] at hxfix
    simp only [pyLstrip] at hxfix
    have hc := head_not_ws_of_dropWhile_fix c (t ++ u) hxfix
    simp [pyLstrip, List.dropWhile_cons, hc]

theorem pyStrip_idem (s : Str) : pyStrip (pyStrip s) = pyStrip s := by
  rw [pyStrip, pyStrip, pyLstrip_fix_of_rstrip (pyLstrip s) (pyLstrip_idem s),
    pyRstrip_idem]

theorem pyStrip_cons_not_ws (c : Char) (l : Str) (h : c.isWhitespace = false) :
    ∃ t, pyStrip (c :: l) = c :: t := by
  rw [pyStrip, pyLstrip, List.dropWhile_cons, if_neg (by simp [h])]
  by_cases hl : pyRstrip l = []
  · refine ⟨[], ?_⟩
    have : (c :: l : Str) = [c] ++ l := rfl
    rw [this, pyRstrip_append_right [c] l hl]
    exact pyRstrip_all_not_ws [c] (by intro d hd; simp at hd; rw [hd]; exact h)
  · refine ⟨pyRstrip l, ?_⟩
    have : (c :: l : Str) = [c] ++ l := rfl
    rw [this, pyRstrip_append_left [c] l hl]
    rfl

theorem infix_of_mem_joinNl (x : Str) (L : List Str) (h : x ∈ L) :
    x <:+: joinNl L := by
  induction L with
  | nil => simp at h
  | cons a t ih =>
    rcases List.mem_cons.mp h with rfl | hmem
    · match t with
      | [] => exact List.infix_refl x
      | b :: ts =>
        rw [joinNl_cons_cons]
        exact (List.prefix_append x _).isInfix
    · match t with
      | [] => simp at hmem
      | b :: ts =>
        rw [joinNl_cons_cons]
        refine (ih hmem).trans ?_
        have : a ++ '\n' :: joinNl (b :: ts) = (a ++ ['\n']) ++ joinNl (b :: ts) := by
          simp
        rw [this]
        exact (List.suffix_append _ _).isInfix

/-! ### Character facts about rendered dates -/

theorem digitChar_not_ws (k : Nat) (h : k < 10) :
    (digitChar k).isWhitespace = false := by
  interval_cases k <;> decide

theorem natDigitsAux_not_ws (fuel n : Nat) :
    ∀ c ∈ natDigitsAux fuel n, c.isWhitespace = false := by
  induction fuel generalizing n with
  | zero => intro c hc; simp [natDigitsAux] at hc
  | succ f ih =>
    intro c hc
    match n with
    | 0 => simp [natDigitsAux] at hc
    | m + 1 =>
      rw [natDigitsAux] at hc
      rcases List.mem_cons.mp hc with rfl | hmem
      · exact digitChar_not_ws _ (Nat.mod_lt _ (by norm_num))
      · exact ih _ c hmem

theorem natStr_not_ws (n : Nat) : ∀ c ∈ natStr n, c.isWhitespace = false := by
  intro c hc
  rw [natStr] at hc
  split at hc
  · simp at hc
    rw [hc]
    exact digitChar_not_ws 0 (by norm_num)
  · rw [List.mem_reverse] at hc
    exact natDigitsAux_not_ws n n c hc

theorem natStr_ne_nil (n : Nat) : natStr n ≠ [] := by
  rw [natStr]
  split
  · simp
  · match n, ‹¬ n = 0› with
    | m + 1, _ =>
      rw [natDigitsAux]
      simp

theorem padZeros_not_ws (w : Nat) (s : Str) (hs : ∀ c ∈ s, c.isWhitespace = false) :
    ∀ c ∈ padZeros w s, c.isWhitespace = false := by
  intro c hc
  rw [padZeros] at hc
  rcases List.mem_append.mp hc with hrep | hmem
  · rw [List.eq_of_mem_replicate hrep]
    decide
  · exact hs c hmem

theorem pad2_not_ws (n : Nat) : ∀ c ∈ pad2 n, c.isWhitespace = false :=
  padZeros_not_ws 2 (natStr n) (natStr_not_ws n)

theorem pad4_not_ws (n : Nat) : ∀ c ∈ pad4 n, c.isWhitespace = false :=
  padZeros_not_ws 4 (natStr n) (natStr_not_ws n)

theorem padZeros_ne_nil (w : Nat) (s : Str) (hs : s ≠ []) : padZeros w s ≠ [] := by
  simp [padZeros, hs]

theorem isoDate_not_ws (d : Date) : ∀ c ∈ isoDate d, c.isWhitespace = false := by
  intro c hc
  simp only [isoDate, List.mem_append] at hc
  rcases hc with ((((h | h) | h) | h) | h)
  · exact pad4_not_ws d.year c h
  · have hd : c = '-' := by simpa [str] using h
    rw [hd]; decide
  · exact pad2_not_ws d.month c h
  · have hd : c = '-' := by simpa [str] using h
    rw [hd]; decide
  · exact pad2_not_ws d.day c h

theorem isoDate_ne_nil (d : Date) : isoDate d ≠ [] := by
  intro h
  rw [isoDate] at h
  have h2 := (List.append_eq_nil.mp h).2
  exact padZeros_ne_nil 2 (natStr d.day) (natStr_ne_nil d.day) h2

theorem not_nl_of_not_ws (c : Char) (h : c.isWhitespace = false) : ¬ c = '\n' := by
  intro hc
  rw [hc] at h
  simp [Char.isWhitespace] at h

theorem isoDate_no_nl (d : Date) : '\n' ∉ isoDate d := by
  intro hmem
  exact not_nl_of_not_ws '\n' (isoDate_not_ws d '\n' hmem) rfl

theorem padZeros_length (w : Nat) (s : Str) : w ≤ (padZeros w s).length := by
  simp [padZeros]
  omega

theorem pad2_length (n : Nat) : 2 ≤ (pad2 n).length := by
  rw [pad2]; exact padZeros_length 2 (natStr n)

theorem pad4_length (n : Nat) : 4 ≤ (pad4 n).length := by
  rw [pad4]; exact padZeros_length 4 (natStr n)

theorem isoDate_length (d : Date) : 10 ≤ (isoDate d).length := by
  rw [isoDate]
  simp only [List.length_append]
  have h4 := pad4_length d.year
  have h2 := pad2_length d.month
  have h2' := pad2_length d.day
  have hdash : (str "-").length = 1 := rfl
  omega

/-! ### Filesystem lemmas -/

theorem fsRead_fsWrite_self (fs : FS) (p : VPath) (c : Str) :
    fsRead (fsWrite fs p c) p = some c := by
  simp [fsWrite, fsRead]

theorem fsRead_filter_ne (fs : FS) (p q : VPath) (h : ¬ q = p) :
    fsRead (fs.filter (fun e => decide (e.1 ≠ p))) q = fsRead fs q := by
  induction fs with
  | nil => rfl
  | cons e rest ih =>
    by_cases he : e.1 = p
    · have : (fun e : VPath × Str => decide (e.1 ≠ p)) e = false := by simp [he]
      rw [List.filter_cons, if_neg (by simp [this]), ih]
      have : fsRead (e :: rest) q = fsRead rest q := by
        obtain ⟨e1, e2⟩ := e
        simp only [fsRead]
        rw [if_neg]
        intro hq
        exact h (by rw [← hq]; exact he.symm ▸ rfl)
      rw [this]
    · rw [List.filter_cons, if_pos (by simp [he])]
      obtain ⟨e1, e2⟩ := e
      simp only [fsRead]
      by_cases hq : e1 = q
      · simp [hq]
      · rw [if_neg hq, if_neg hq, ih]

theorem fsRead_fsWrite_ne (fs : FS) (p q : VPath) (c : Str) (h : ¬ q = p) :
    fsRead (fsWrite fs p c) q = fsRead fs q := by
  rw [fsWrite]
  show fsRead ((p, c) :: _) q = _
  simp only [fsRead]
  rw [if_neg (fun hp => h hp.symm), fsRead_filter_ne fs p q h]

/-! ### More toolbox lemmas: right-strip fixpoints and pending lines -/

theorem pyRstrip_eq_self_of_getLast (t : Str) (c : Char) (h : t.getLast? = some c)
    (hc : c.isWhitespace = false) : pyRstrip t = t := by
  obtain ⟨ys, rfl⟩ := List.getLast?_eq_some_iff.mp h
  exact pyRstrip_append_not_ws ys [c] (by simp)
    (by intro d hd; simp at hd; rw [hd]; exact hc)

theorem joinNl_singleton (x : Str) : joinNl [x] = x := rfl

theorem joinNl_append_last (L : List Str) (x : Str) (hL : L ≠ []) :
    joinNl (L ++ [x]) = joinNl L ++ '\n' :: x := by
  rw [← joinNl_flatten L [x] hL, joinNl_cons_cons, joinNl_singleton]

theorem pyRstrip_joinNl_last (L : List Str) (x : Str) (c : Char)
    (hx : x.getLast? = some c) (hc : c.isWhitespace = false) :
    pyRstrip (joinNl (L ++ [x])) = joinNl (L ++ [x]) := by
  match L with
  | [] =>
    rw [List.nil_append, joinNl_singleton]
    exact pyRstrip_eq_self_of_getLast x c hx hc
  | a :: t =>
    rw [joinNl_append_last (a :: t) x (by simp)]
    apply pyRstrip_eq_self_of_getLast _ c _ hc
    obtain ⟨ys, rfl⟩ := List.getLast?_eq_some_iff.mp hx
    rw [show joinNl (a :: t) ++ '\n' :: (ys ++ [c]) =
      (joinNl (a :: t) ++ '\n' :: ys) ++ [c] by simp]
    exact List.getLast?_concat _

theorem pendingOfLine_not_dash (c : Char) (l : Str) (hc : c.isWhitespace = false)
    (hne : ¬ c = '-') : TaskAgent.pendingOfLine (c :: l) = none := by
  obtain ⟨t, ht⟩ := pyStrip_cons_not_ws c l hc
  have hpre : List.isPrefixOf (str "- [ ]") (c :: t) = false := by
    have hbeq : ('-' == c) = false := beq_eq_false_iff_ne.mpr (fun h => hne h.symm)
    show List.isPrefixOf ('-' :: str " [ ]") (c :: t) = false
    simp [List.isPrefixOf, hbeq]
  simp only [TaskAgent.pendingOfLine, ht, hpre]
  simp

theorem pendingOfLine_append_lit (lit : Str) (x : Str) (c : Char) (rest : Str)
    (hlit : lit = c :: rest) (hc : c.isWhitespace = false) (hne : ¬ c = '-') :
    TaskAgent.pendingOfLine (lit ++ x) = none := by
  subst hlit
  rw [List.cons_append]
  exact pendingOfLine_not_dash c _ hc hne

/-! ### C2: category normalization in the notes organizer -/

/-- C2 (counterexample): the category string `"meetings"` is not a member
of the set Meetings/Learning/Ideas, yet `NotesAgent.organize` files the
note under the `Meetings` subfolder, not `Learning`, because the category
is first normalized by `strip().title()`. -/
theorem c2_counterexample :
    str "meetings" ∉ [str "Meetings", str "Learning", str "Ideas"] ∧
    ((NotesAgent.organize ⟨str "Alpha", str "sum", str "body", []⟩ ⟨2025, 3, 15⟩ []
        (str "meetings") (some ⟨2025, 3, 15⟩)).2.1)[4]? = some (str "Meetings") :=
  ⟨by decide, by decide⟩

/-- C2 (amended): for every category whose `strip().title()` normalization
is not in Meetings/Learning/Ideas, `NotesAgent.organize` files the note
under the `Learning` subfolder of the week's `Notes` directory (component
4 of the note path, after year/month/week/`Notes`). -/
theorem c2_unknown_category_filed_under_learning
    (organized : OrganizedNote) (today : Date) (fs : FS) (category : Str)
    (dateValue : Option Date)
    (h : pyTitle (pyStrip category) ∉ [str "Meetings", str "Learning", str "Ideas"]) :
    ((NotesAgent.organize organized today fs category dateValue).2.1)[4]? =
      some (str "Learning") := by
  have hnorm : NotesAgent.normalizeCategory category = str "Learning" := by
    rw [NotesAgent.normalizeCategory]
    simp only [List.mem_cons, List.not_mem_nil, or_false, not_or] at h
    rw [if_neg]
    simp only [not_or]
    exact ⟨h.1, h.2.1, h.2.2⟩
  have hpath : (NotesAgent.organize organized today fs category dateValue).2.1 =
      ObsidianService.week_subpath today dateValue (str "Notes") ++
        [NotesAgent.normalizeCategory category,
         ObsidianService.slugify (pyStrip organized.title) ++ str ".md"] := rfl
  rw [hpath, hnorm, ObsidianService.week_subpath, ObsidianService.week_base_path]
  rfl

/-- C2 (witness): concrete instance of the amended theorem. -/
theorem c2_unknown_category_filed_under_learning_witness :
    pyTitle (pyStrip (str "random stuff")) ∉
      [str "Meetings", str "Learning", str "Ideas"] ∧
    ((NotesAgent.organize ⟨str "T", str "s", str "b", []⟩ ⟨2025, 1, 2⟩ []
        (str "random stuff") none).2.1)[4]? = some (str "Learning") :=
  ⟨by decide, c2_unknown_category_filed_under_learning _ _ _ _ _ (by decide)⟩

/-! ### C9: determinism of vault paths -/

/-- C9 (counterexample): with the date and the category fixed, two runs
of the notes organizer whose LLM calls produce different titles resolve
to different note paths, so the note path is not a function of
(date, category) alone. -/
theorem c9_counterexample :
    (NotesAgent.organize ⟨str "Alpha", str "s", str "b", []⟩ ⟨2025, 3, 15⟩ []
        (str "Learning") (some ⟨2025, 3, 15⟩)).2.1 ≠
    (NotesAgent.organize ⟨str "Beta", str "s", str "b", []⟩ ⟨2025, 3, 15⟩ []
        (str "Learning") (some ⟨2025, 3, 15⟩)).2.1 := by decide

/-- C9 (amended): vault paths are deterministic functions of
(date, category, LLM-produced title): the note and meeting paths do not
depend on the vault contents, and both live under the week folder
`{year:04}/{month:02}/Week-{((day-1)/7)+1}`, with the file name built
from the slug of the title. -/
theorem c9_paths_deterministic_given_title
    (organized : OrganizedNote) (meetingSum : MeetingSummary) (today : Date)
    (fs fs2 : FS) (category : Str) (d : Date) :
    (NotesAgent.organize organized today fs category (some d)).2.1 =
      (NotesAgent.organize organized today fs2 category (some d)).2.1 ∧
    (NotesAgent.organize organized today fs category (some d)).2.1 =
      [pad4 d.year, pad2 d.month, str "Week-" ++ natStr ((d.day - 1) / 7 + 1),
       str "Notes", NotesAgent.normalizeCategory category,
       ObsidianService.slugify (pyStrip organized.title) ++ str ".md"] ∧
    (MeetingAgent.summarize meetingSum today fs (some d)).2.1 =
      [pad4 d.year, pad2 d.month, str "Week-" ++ natStr ((d.day - 1) / 7 + 1),
       str "Meetings", ObsidianService.slugify (pyStrip meetingSum.title) ++ str ".md"] :=
  ⟨rfl, rfl, rfl⟩

/-! ### C4 and C10: the empty-extraction placeholder -/

/-- Normal form of `write_tasks` with no tasks on a fresh file. -/
theorem write_tasks_empty_fresh (today : Date) (fs : FS) (dateValue : Option Date)
    (h : fsRead fs (TaskAgent.taskFilePath today dateValue) = none) :
    TaskAgent.write_tasks today fs [] dateValue none =
      (fsWrite fs (TaskAgent.taskFilePath today dateValue)
        (pyRstrip (joinNl
          ((TaskAgent.freshHeaderLines today (isoDate (parseDate today dateValue)) ++
            TaskAgent.taskBodyLines []) ++ TaskAgent.blockersLines none)) ++ str "\n"),
       TaskAgent.taskFilePath today dateValue) := by
  simp [TaskAgent.write_tasks, h, ObsidianService.write_markdown]

/-- Normal form of `write_tasks` with no tasks on an existing file. -/
theorem write_tasks_empty_append (today : Date) (fs : FS) (dateValue : Option Date)
    (e : Str) (h : fsRead fs (TaskAgent.taskFilePath today dateValue) = some e) :
    TaskAgent.write_tasks today fs [] dateValue none =
      (fsWrite fs (TaskAgent.taskFilePath today dateValue)
        (pyRstrip e ++ str "\n\n" ++
          (pyRstrip (joinNl
            ([str "## Extracted Tasks (" ++ isoDate (parseDate today dateValue) ++ str ")",
              []] ++ TaskAgent.taskBodyLines [])) ++ str "\n")),
       TaskAgent.taskFilePath today dateValue) := by
  simp [TaskAgent.write_tasks, h, ObsidianService.append_markdown]

/-- C4: `TaskAgent.write_tasks` called with an empty task list writes a
tasks file whose content contains the placeholder `"No tasks extracted."`
(in both the fresh-file and the append branch). -/
theorem c4_empty_tasks_write_placeholder (today : Date) (fs : FS)
    (dateValue : Option Date) :
    ∃ content,
      fsRead (TaskAgent.write_tasks today fs [] dateValue none).1
          (TaskAgent.taskFilePath today dateValue) = some content ∧
      str "No tasks extracted." <:+: content := by
  have hph : str "No tasks extracted." <:+: str "- [ ] No tasks extracted." := by decide
  rcases hread : fsRead fs (TaskAgent.taskFilePath today dateValue) with _ | e
  · rw [write_tasks_empty_fresh today fs dateValue hread]
    refine ⟨_, fsRead_fsWrite_self _ _ _, ?_⟩
    have hmem : str "- [ ] No tasks extracted." ∈
        (TaskAgent.freshHeaderLines today (isoDate (parseDate today dateValue)) ++
          TaskAgent.taskBodyLines []) ++ TaskAgent.blockersLines none := by
      simp [TaskAgent.taskBodyLines]
    have hform : (TaskAgent.freshHeaderLines today (isoDate (parseDate today dateValue)) ++
          TaskAgent.taskBodyLines []) ++ TaskAgent.blockersLines none =
        ((TaskAgent.freshHeaderLines today (isoDate (parseDate today dateValue)) ++
          TaskAgent.taskBodyLines []) ++ [[], str "## Blockers"]) ++
          [str "- None noted."] := by
      simp [TaskAgent.blockersLines]
    have hr : pyRstrip (joinNl
        ((TaskAgent.freshHeaderLines today (isoDate (parseDate today dateValue)) ++
          TaskAgent.taskBodyLines []) ++ TaskAgent.blockersLines none)) =
        joinNl ((TaskAgent.freshHeaderLines today (isoDate (parseDate today dateValue)) ++
          TaskAgent.taskBodyLines []) ++ TaskAgent.blockersLines none) := by
      rw [hform]
      exact pyRstrip_joinNl_last _ _ '.' (by decide) (by decide)
    rw [hr]
    exact (hph.trans (infix_of_mem_joinNl _ _ hmem)).trans
      (List.prefix_append _ _).isInfix
  · rw [write_tasks_empty_append today fs dateValue e hread]
    refine ⟨_, fsRead_fsWrite_self _ _ _, ?_⟩
    have hmem : str "- [ ] No tasks extracted." ∈
        [str "## Extracted Tasks (" ++ isoDate (parseDate today dateValue) ++ str ")",
          []] ++ TaskAgent.taskBodyLines [] := by
      simp [TaskAgent.taskBodyLines]
    have hform : ([str "## Extracted Tasks (" ++ isoDate (parseDate today dateValue) ++
          str ")", []] ++ TaskAgent.taskBodyLines []) =
        [str "## Extracted Tasks (" ++ isoDate (parseDate today dateValue) ++ str ")",
          []] ++ [str "- [ ] No tasks extracted."] := by
      simp [TaskAgent.taskBodyLines]
    have hr : pyRstrip (joinNl
        ([str "## Extracted Tasks (" ++ isoDate (parseDate today dateValue) ++ str ")",
          []] ++ TaskAgent.taskBodyLines [])) =
        joinNl ([str "## Extracted Tasks (" ++ isoDate (parseDate today dateValue) ++
          str ")", []] ++ TaskAgent.taskBodyLines []) := by
      rw [hform]
      exact pyRstrip_joinNl_last _ _ '.' (by decide) (by decide)
    rw [hr]
    have h1 : str "No tasks extracted." <:+:
        joinNl ([str "## Extracted Tasks (" ++ isoDate (parseDate today dateValue) ++
          str ")", []] ++ TaskAgent.taskBodyLines []) :=
      hph.trans (infix_of_mem_joinNl _ _ hmem)
    have h2 : joinNl ([str "## Extracted Tasks (" ++ isoDate (parseDate today dateValue) ++
          str ")", []] ++ TaskAgent.taskBodyLines []) <:+:
        joinNl ([str "## Extracted Tasks (" ++ isoDate (parseDate today dateValue) ++
          str ")", []] ++ TaskAgent.taskBodyLines []) ++ str "\n" :=
      (List.prefix_append _ _).isInfix
    have h3 : joinNl ([str "## Extracted Tasks (" ++ isoDate (parseDate today dateValue) ++
          str ")", []] ++ TaskAgent.taskBodyLines []) ++ str "\n" <:+:
        (pyRstrip e ++ str "\n\n") ++
          (joinNl ([str "## Extracted Tasks (" ++ isoDate (parseDate today dateValue) ++
            str ")", []] ++ TaskAgent.taskBodyLines []) ++ str "\n") :=
      (List.suffix_append _ _).isInfix
    exact (h1.trans h2).trans h3

/-- Absence of newlines distributes over append. -/
theorem no_nl_append (a b : Str) (ha : '\n' ∉ a) (hb : '\n' ∉ b) :
    '\n' ∉ a ++ b := by
  intro h
  rcases List.mem_append.mp h with h | h
  · exact ha h
  · exact hb h

/-- C10: after `write_tasks` writes the empty-extraction placeholder for
a date with no pre-existing tasks file, `list_pending_tasks` for the same
date returns exactly `["No tasks extracted."]` — the placeholder is an
unchecked checkbox line and counts as a pending task. -/
theorem c10_placeholder_counted_pending (today : Date) (fs : FS)
    (dateValue : Option Date)
    (h : fsRead fs (TaskAgent.taskFilePath today dateValue) = none) :
    TaskAgent.list_pending_tasks today
        (TaskAgent.write_tasks today fs [] dateValue none).1 dateValue =
      [str "No tasks extracted."] := by
  rw [write_tasks_empty_fresh today fs dateValue h]
  rw [TaskAgent.list_pending_tasks]
  simp only [fsRead_fsWrite_self]
  have hfm : ObsidianService.build_frontmatter today
      (str "Tasks " ++ isoDate (parseDate today dateValue)) [str "tasks"] none =
      joinNl [str "---",
        str "title: " ++ (str "Tasks " ++ isoDate (parseDate today dateValue)),
        str "date: " ++ isoDate today,
        str "tags: [" ++ joinSep (str ", ") [str "tasks"] ++ str "]",
        str "---"] := by
    simp [ObsidianService.build_frontmatter, joinNl]
  have hLc : (TaskAgent.freshHeaderLines today (isoDate (parseDate today dateValue)) ++
        TaskAgent.taskBodyLines []) ++ TaskAgent.blockersLines none =
      ObsidianService.build_frontmatter today
        (str "Tasks " ++ isoDate (parseDate today dateValue)) [str "tasks"] none ::
      [[], str "# Tasks " ++ isoDate (parseDate today dateValue), [],
       str "- [ ] No tasks extracted.", [], str "## Blockers",
       str "- None noted."] := by
    simp [TaskAgent.freshHeaderLines, TaskAgent.taskBodyLines, TaskAgent.blockersLines]
  have hform : (TaskAgent.freshHeaderLines today (isoDate (parseDate today dateValue)) ++
        TaskAgent.taskBodyLines []) ++ TaskAgent.blockersLines none =
      ((TaskAgent.freshHeaderLines today (isoDate (parseDate today dateValue)) ++
        TaskAgent.taskBodyLines []) ++ [[], str "## Blockers"]) ++
        [str "- None noted."] := by
    simp [TaskAgent.blockersLines]
  have hr : pyRstrip (joinNl
      ((TaskAgent.freshHeaderLines today (isoDate (parseDate today dateValue)) ++
        TaskAgent.taskBodyLines []) ++ TaskAgent.blockersLines none)) =
      joinNl ((TaskAgent.freshHeaderLines today (isoDate (parseDate today dateValue)) ++
        TaskAgent.taskBodyLines []) ++ TaskAgent.blockersLines none) := by
    rw [hform]
    exact pyRstrip_joinNl_last _ _ '.' (by decide) (by decide)
  rw [hr, hLc, hfm]
  rw [joinNl_flatten _ _ (by simp)]
  have hnl : str "\n" = ['\n'] := rfl
  rw [hnl]
  rw [pySplitlines_joinNl_concat]
  · have h2 := pendingOfLine_append_lit (str "title: ")
      (str "Tasks " ++ isoDate (parseDate today dateValue)) 't' (str "itle: ")
      rfl (by decide) (by decide)
    have h3 := pendingOfLine_append_lit (str "date: ") (isoDate today) 'd'
      (str "ate: ") rfl (by decide) (by decide)
    have h7 := pendingOfLine_append_lit (str "# Tasks ")
      (isoDate (parseDate today dateValue)) '#' (str " Tasks ")
      rfl (by decide) (by decide)
    have hA : TaskAgent.pendingOfLine (str "---") = none := by decide
    have hD : TaskAgent.pendingOfLine
        (str "tags: [" ++ (joinSep (str ", ") [str "tasks"] ++ str "]")) = none := by decide
    have hE : TaskAgent.pendingOfLine [] = none := by decide
    have hG : TaskAgent.pendingOfLine (str "- [ ] No tasks extracted.") =
        some (str "No tasks extracted.") := by decide
    have hH : TaskAgent.pendingOfLine (str "## Blockers") = none := by decide
    have hI : TaskAgent.pendingOfLine (str "- None noted.") = none := by decide
    simp [List.filterMap_cons, h2, h3, h7, hA, hD, hE, hG, hH, hI]
  · simp
  · intro l hl
    simp only [List.cons_append, List.nil_append, List.mem_cons,
      List.not_mem_nil, or_false] at hl
    rcases hl with rfl | rfl | rfl | rfl | rfl | rfl | rfl | rfl | rfl | rfl | rfl | rfl
    all_goals first
      | decide
      | exact no_nl_append _ _ (by decide) (isoDate_no_nl _)
      | exact no_nl_append _ _ (by decide) (no_nl_append _ _ (by decide) (isoDate_no_nl _))

/-- C10 (witness): on the empty vault with a fixed date. -/
theorem c10_placeholder_counted_pending_witness :
    fsRead ([] : FS) (TaskAgent.taskFilePath ⟨2025, 3, 15⟩ none) = none ∧
    TaskAgent.list_pending_tasks ⟨2025, 3, 15⟩
        (TaskAgent.write_tasks ⟨2025, 3, 15⟩ [] [] none none).1 none =
      [str "No tasks extracted."] :=
  ⟨rfl, c10_placeholder_counted_pending ⟨2025, 3, 15⟩ [] none rfl⟩

/-! ### C3: appending to an existing daily progress log -/

/-- The daily log path and the weekly summary path never coincide: the
file names have different lengths. -/
theorem dailyLog_ne_weekly (today : Date) (dateValue : Option Date) :
    ¬ ProgressAgent.dailyLogPath today dateValue =
      ProgressAgent.weeklySummaryPath today dateValue := by
  intro heq
  rw [ProgressAgent.dailyLogPath, ProgressAgent.weeklySummaryPath,
    ObsidianService.week_subpath] at heq
  have hwb : ObsidianService.week_base_path today (some (parseDate today dateValue)) =
      ObsidianService.week_base_path today dateValue := rfl
  rw [hwb, List.append_assoc] at heq
  have htail := List.append_cancel_left heq
  have hname : isoDate (parseDate today dateValue) ++ str "-daily-progress.md" =
      str "weekly-summary.md" := by
    have := htail
    simp only [List.cons_append, List.nil_append, List.cons.injEq] at this
    exact this.2.1
  have hlen := congrArg List.length hname
  rw [List.length_append] at hlen
  have hiso := isoDate_length (parseDate today dateValue)
  have h18 : (str "-daily-progress.md").length = 18 := rfl
  have h17 : (str "weekly-summary.md").length = 17 := rfl
  omega

/-- Reads at any path other than the weekly summary see through
`ProgressAgent.generate_weekly`. -/
theorem fsRead_generate_weekly_ne (weekly : WeeklyProgress) (today : Date)
    (fs : FS) (dateValue : Option Date) (q : VPath)
    (hq : ¬ q = ProgressAgent.weeklySummaryPath today dateValue) :
    fsRead (ProgressAgent.generate_weekly weekly today fs dateValue).1 q =
      fsRead fs q := by
  simp only [ProgressAgent.generate_weekly, ObsidianService.write_markdown]
  exact fsRead_fsWrite_ne _ _ _ _ hq

/-- C3: when the daily progress log for a date already exists,
`ProgressAgent.log_daily` appends an `"## Update <timestamp>"` section:
the new file content is the right-stripped old content, a blank line,
then the update block — so the old content (up to trailing whitespace)
remains an unchanged prefix and the file is not overwritten. -/
theorem c3_log_daily_appends_update (daily : DailyProgress) (weekly : WeeklyProgress)
    (today : Date) (fs : FS) (dateValue : Option Date) (E : Str)
    (h : fsRead fs (ProgressAgent.dailyLogPath today dateValue) = some E) :
    ∃ rest,
      fsRead (ProgressAgent.log_daily daily weekly today fs dateValue).1
          (ProgressAgent.dailyLogPath today dateValue) =
        some (pyRstrip E ++ str "\n\n" ++ (str "## Update " ++ (isoDate today ++ rest))) ∧
      pyRstrip E <+:
        pyRstrip E ++ str "\n\n" ++ (str "## Update " ++ (isoDate today ++ rest)) := by
  have hcontent : ∃ rest,
      pyRstrip (joinNl ([str "## Update " ++ ObsidianService.timestamp today, []] ++
        ProgressAgent.sectionLines daily)) ++ str "\n" =
      str "## Update " ++ (isoDate today ++ rest) := by
    have hts : ObsidianService.timestamp today = isoDate today := rfl
    have hjoin : joinNl ([str "## Update " ++ isoDate today, []] ++
        ProgressAgent.sectionLines daily) =
        (str "## Update " ++ isoDate today) ++
          ('\n' :: joinNl ([] :: ProgressAgent.sectionLines daily)) := by
      rw [ProgressAgent.sectionLines]
      rw [List.cons_append, List.cons_append, List.nil_append]
      rw [joinNl_cons_cons]
    rw [hts, hjoin]
    by_cases hT : pyRstrip ('\n' :: joinNl ([] :: ProgressAgent.sectionLines daily)) = []
    · rw [pyRstrip_append_right _ _ hT]
      rw [pyRstrip_append_not_ws (str "## Update ") (isoDate today)
        (isoDate_ne_nil today) (isoDate_not_ws today)]
      exact ⟨str "\n", by simp⟩
    · rw [pyRstrip_append_left _ _ hT]
      exact ⟨pyRstrip ('\n' :: joinNl ([] :: ProgressAgent.sectionLines daily)) ++ str "\n",
        by simp⟩
  obtain ⟨rest, hrest⟩ := hcontent
  refine ⟨rest, ?_, ?_⟩
  · have hout : (ProgressAgent.log_daily daily weekly today fs dateValue).1 =
        (ProgressAgent.generate_weekly weekly today
          (ObsidianService.append_markdown fs (ProgressAgent.dailyLogPath today dateValue)
            (pyRstrip (joinNl ([str "## Update " ++ ObsidianService.timestamp today, []] ++
              ProgressAgent.sectionLines daily)) ++ str "\n"))
          dateValue).1 := by
      simp [ProgressAgent.log_daily, h]
    rw [hout,
      fsRead_generate_weekly_ne _ _ _ _ _ (dailyLog_ne_weekly today dateValue)]
    rw [ObsidianService.append_markdown, h, hrest]
    exact fsRead_fsWrite_self _ _ _
  · exact (List.prefix_append _ _).trans (List.prefix_append _ _)

/-- C3 (witness): a vault holding an existing daily log for 2025-03-15. -/
theorem c3_log_daily_appends_update_witness :
    fsRead [(ProgressAgent.dailyLogPath ⟨2025, 3, 15⟩ none, str "old content")]
        (ProgressAgent.dailyLogPath ⟨2025, 3, 15⟩ none) = some (str "old content") ∧
    ∃ rest,
      fsRead (ProgressAgent.log_daily ⟨str "s", [], [], [], []⟩
            ⟨str "s", [], [], [], [], [], []⟩ ⟨2025, 3, 15⟩
            [(ProgressAgent.dailyLogPath ⟨2025, 3, 15⟩ none, str "old content")] none).1
          (ProgressAgent.dailyLogPath ⟨2025, 3, 15⟩ none) =
        some (pyRstrip (str "old content") ++ str "\n\n" ++
          (str "## Update " ++ (isoDate ⟨2025, 3, 15⟩ ++ rest))) ∧
      pyRstrip (str "old content") <+:
        pyRstrip (str "old content") ++ str "\n\n" ++
          (str "## Update " ++ (isoDate ⟨2025, 3, 15⟩ ++ rest)) :=
  ⟨by decide, c3_log_daily_appends_update ⟨str "s", [], [], [], []⟩
    ⟨str "s", [], [], [], [], [], []⟩ ⟨2025, 3, 15⟩
    [(ProgressAgent.dailyLogPath ⟨2025, 3, 15⟩ none, str "old content")] none
    (str "old content") (by decide)⟩

/-! ### C1: the confirmation gate of AwaitingConfirmation sessions -/

theorem is_confirmation_mem (m : Str) :
    is_confirmation (pyStrip m) = decide (pyLower (pyStrip m) ∈ confirmationPhrases) := by
  simp [is_confirmation, pyStrip_idem]

/-- C1: with a pending action stored, the handler executes the stored
pending payload and clears the session state if and only if the
stripped, lowercased message text is one of the fixed confirmation
phrases; any other message gets the waiting reminder, leaves the state
(including `pending_action` and `pending_payload`) unchanged and writes
nothing to the vault. -/
theorem c1_confirmation_gate (O : Oracles) (today : Date) (payload : CommandRequest)
    (state : AgentState) (fs : FS) (a : Str)
    (h : state.pending_action = some a) :
    (pyLower (pyStrip payload.text) ∈ confirmationPhrases →
      handle_message O today payload state fs =
        ⟨(executePendingAction O today payload state fs).1, AgentState.empty,
         (executePendingAction O today payload state fs).2⟩) ∧
    (pyLower (pyStrip payload.text) ∉ confirmationPhrases →
      (handle_message O today payload state fs).response.message =
        str "I’m waiting for your confirmation. Should I proceed and write to your vault?" ∧
      (handle_message O today payload state fs).response.action = some (str "ask") ∧
      (handle_message O today payload state fs).state = state ∧
      (handle_message O today payload state fs).fs = fs) := by
  have hsome : state.pending_action.isSome = true := by rw [h]; rfl
  constructor
  · intro hmem
    have hconf : is_confirmation (pyStrip payload.text) = true := by
      rw [is_confirmation_mem]
      exact decide_eq_true hmem
    rcases hexec : executePendingAction O today payload state fs with ⟨r, f2⟩
    simp [handle_message, hsome, hconf, hexec]
  · intro hmem
    have hconf : is_confirmation (pyStrip payload.text) = false := by
      rw [is_confirmation_mem]
      exact decide_eq_false hmem
    simp [handle_message, hsome, hconf]

/-- A fixed set of LLM-oracle results for witnesses. -/
def sampleOracles : Oracles where
  decide := Except.ok ⟨str "conversation", 1, str "talk", str "r", none⟩
  invoke := fun _ _ => Except.ok (str "reply")
  respond := Except.ok (str "reply")
  organized := ⟨str "T", str "s", str "b", []⟩
  meeting := ⟨str "M", str "s", [], [], []⟩
  extracted := []
  daily := ⟨str "s", [], [], [], []⟩
  weekly := ⟨str "s", [], [], [], [], [], []⟩
  report := ⟨str "R", str "s", [], [], []⟩

/-- A session awaiting confirmation of a stored notes write. -/
def samplePending : AgentState :=
  ⟨some (str "write_command"), some (str "write"),
   some ⟨str "notes_learning", str "text", none⟩, some (str "ask")⟩

/-- C1 (witness): the message `"yes"` executes and clears the state. -/
theorem c1_confirmation_gate_witness :
    samplePending.pending_action = some (str "write") ∧
    (handle_message sampleOracles ⟨2025, 3, 15⟩ ⟨str "yes", none⟩
        samplePending []).state = AgentState.empty := by
  refine ⟨rfl, ?_⟩
  have happ := (c1_confirmation_gate sampleOracles ⟨2025, 3, 15⟩ ⟨str "yes", none⟩
    samplePending [] (str "write") rfl).1 (by decide)
  rw [happ]

/-! ### C5: the read-only heuristic override -/

/-- C5 (counterexample): the profile-reset and conversation-reset
branches of `_handle_message` run before the read-only trigger check, so
an idle-state message that contains a trigger phrase is not always
answered as `read_only`: `"status update on my new internship"` contains
the trigger `"status update"`, yet the handler takes the new-internship
branch and answers with intent `conversation`, not `read_only`. -/
theorem c5_counterexample :
    (read_only_triggers.any (fun t =>
      isSubstring t (pyLower (pyStrip (str "status update on my new internship"))))) =
      true ∧
    AgentState.empty.pending_action = none ∧
    (handle_message sampleOracles ⟨2025, 3, 15⟩
        ⟨str "status update on my new internship", none⟩
        AgentState.empty []).response.intent = some (str "conversation") ∧
    ¬ (handle_message sampleOracles ⟨2025, 3, 15⟩
        ⟨str "status update on my new internship", none⟩
        AgentState.empty []).response.intent = some (str "read_only") := by
  refine ⟨by decide, rfl, ?_, ?_⟩ <;> decide

/-- C5 (amended): an idle-state message containing a read-only trigger
phrase — provided it contains none of the earlier-checked reset phrases
(`"start a new internship"`, `"new internship"`,
`"reset this conversation"`, `"reset conversation"`) — is answered with
intent `read_only` and action `talk` regardless of the Brain decision,
the reply is exactly the LLM answer to the read-context digest prompt,
and the vault is unchanged. -/
theorem c5_read_only_override (O : Oracles) (today : Date) (payload : CommandRequest)
    (state : AgentState) (fs : FS) (d0 : BrainDecision) (reply : Str)
    (hpend : state.pending_action = none)
    (htrig : (read_only_triggers.any
      (fun t => isSubstring t (pyLower (pyStrip payload.text)))) = true)
    (h1 : isSubstring (str "start a new internship") (pyLower (pyStrip payload.text)) = false)
    (h2 : isSubstring (str "new internship") (pyLower (pyStrip payload.text)) = false)
    (h3 : isSubstring (str "reset this conversation") (pyLower (pyStrip payload.text)) = false)
    (h4 : isSubstring (str "reset conversation") (pyLower (pyStrip payload.text)) = false)
    (hdec : O.decide = Except.ok d0)
    (hinv : O.invoke roSystemPrompt
        (str "Question: " ++ pyStrip payload.text ++ str "\n\nExisting data:\n" ++
          ReaderService.build_read_context today fs payload.date) = Except.ok reply) :
    (handle_message O today payload state fs).response.intent = some (str "read_only") ∧
    (handle_message O today payload state fs).response.action = some (str "talk") ∧
    (handle_message O today payload state fs).response.message = reply ∧
    (handle_message O today payload state fs).fs = fs := by
  have heff : effectiveDecision (pyLower (pyStrip payload.text)) d0 =
      { d0 with intent := str "read_only", action := str "talk" } := by
    rw [effectiveDecision, if_pos htrig]
  have hinvr : O.invoke roSystemPrompt
      (str "Question: " ++ (pyStrip payload.text ++ (str "\n\nExisting data:\n" ++
        ReaderService.build_read_context today fs payload.date))) = Except.ok reply := by
    simpa [List.append_assoc] using hinv
  simp [handle_message, hpend, h1, h2, h3, h4, hdec, heff, hinvr]

/-- C5 (witness): the trigger `"status update"` on an empty vault. -/
theorem c5_read_only_override_witness :
    (handle_message sampleOracles ⟨2025, 3, 15⟩ ⟨str "status update", none⟩
        AgentState.empty []).response.intent = some (str "read_only") ∧
    (handle_message sampleOracles ⟨2025, 3, 15⟩ ⟨str "status update", none⟩
        AgentState.empty []).response.message = str "reply" := by
  have happ := c5_read_only_override sampleOracles ⟨2025, 3, 15⟩
    ⟨str "status update", none⟩ AgentState.empty []
    ⟨str "conversation", 1, str "talk", str "r", none⟩ (str "reply")
    rfl (by decide) (by decide) (by decide) (by decide) (by decide) rfl rfl
  exact ⟨happ.1, happ.2.2.1⟩

/-! ### C7: LLM failures surface as error responses -/

/-- C7: when the Brain intent classification, the read-only reply
invocation, or the conversational reply invocation fails, the handler
returns a response with status `"error"` and a message derived from the
exception text by `_llm_error_message`, without writing to the vault
(the exception is absorbed, not propagated). -/
theorem c7_llm_errors_surfaced (O : Oracles) (today : Date) (payload : CommandRequest)
    (state : AgentState) (fs : FS)
    (hpend : state.pending_action = none)
    (h1 : isSubstring (str "start a new internship") (pyLower (pyStrip payload.text)) = false)
    (h2 : isSubstring (str "new internship") (pyLower (pyStrip payload.text)) = false)
    (h3 : isSubstring (str "reset this conversation") (pyLower (pyStrip payload.text)) = false)
    (h4 : isSubstring (str "reset conversation") (pyLower (pyStrip payload.text)) = false) :
    (∀ e, O.decide = Except.error e →
      (handle_message O today payload state fs).response.status = str "error" ∧
      (handle_message O today payload state fs).response.message = llm_error_message e ∧
      (handle_message O today payload state fs).fs = fs) ∧
    (∀ e d0, O.decide = Except.ok d0 →
      (effectiveDecision (pyLower (pyStrip payload.text)) d0).intent = str "read_only" →
      O.invoke = (fun _ _ => Except.error e) →
      (handle_message O today payload state fs).response.status = str "error" ∧
      (handle_message O today payload state fs).response.message = llm_error_message e ∧
      (handle_message O today payload state fs).fs = fs) ∧
    (∀ e d0, O.decide = Except.ok d0 →
      ¬ (effectiveDecision (pyLower (pyStrip payload.text)) d0).intent = str "read_only" →
      (effectiveDecision (pyLower (pyStrip payload.text)) d0).action = str "talk" →
      O.respond = Except.error e →
      (handle_message O today payload state fs).response.status = str "error" ∧
      (handle_message O today payload state fs).response.message = llm_error_message e ∧
      (handle_message O today payload state fs).fs = fs) := by
  refine ⟨?_, ?_, ?_⟩
  · intro e hdec
    simp [handle_message, hpend, h1, h2, h3, h4, hdec]
  · intro e d0 hdec hint hinv
    simp [handle_message, hpend, h1, h2, h3, h4, hdec, hint, hinv]
  · intro e d0 hdec hint hact hresp
    simp [handle_message, hpend, h1, h2, h3, h4, hdec, hint, hact, hresp]

/-- C7 (witness): a failing Brain call on an idle session. -/
theorem c7_llm_errors_surfaced_witness :
    (handle_message
        { sampleOracles with decide := Except.error (str "boom") }
        ⟨2025, 3, 15⟩ ⟨str "hello there", none⟩ AgentState.empty []).response.status =
      str "error" ∧
    (handle_message
        { sampleOracles with decide := Except.error (str "boom") }
        ⟨2025, 3, 15⟩ ⟨str "hello there", none⟩ AgentState.empty []).response.message =
      llm_error_message (str "boom") := by
  have happ := (c7_llm_errors_surfaced
    { sampleOracles with decide := Except.error (str "boom") }
    ⟨2025, 3, 15⟩ ⟨str "hello there", none⟩ AgentState.empty []
    rfl (by decide) (by decide) (by decide) (by decide)).1 (str "boom") rfl
  exact ⟨happ.1, happ.2.1⟩

/-! ### C6: keyword priority of the write dispatch -/

theorem dispatchLevel_le_of_kwTest (lower : Str) (j : Nat)
    (hj : kwTest j lower = true) : dispatchLevel lower ≤ j := by
  cases h0 : kwTest 0 lower with
  | true => simp [dispatchLevel, h0]
  | false =>
  cases h1 : kwTest 1 lower with
  | true =>
    have hd : dispatchLevel lower = 1 := by simp [dispatchLevel, h0, h1]
    rw [hd]
    by_contra hlt
    push_neg at hlt
    interval_cases j
    · rw [h0] at hj; exact absurd hj (by simp)
  | false =>
  cases h2 : kwTest 2 lower with
  | true =>
    have hd : dispatchLevel lower = 2 := by simp [dispatchLevel, h0, h1, h2]
    rw [hd]
    by_contra hlt
    push_neg at hlt
    interval_cases j
    · rw [h0] at hj; exact absurd hj (by simp)
    · rw [h1] at hj; exact absurd hj (by simp)
  | false =>
  cases h3 : kwTest 3 lower with
  | true =>
    have hd : dispatchLevel lower = 3 := by simp [dispatchLevel, h0, h1, h2, h3]
    rw [hd]
    by_contra hlt
    push_neg at hlt
    interval_cases j
    · rw [h0] at hj; exact absurd hj (by simp)
    · rw [h1] at hj; exact absurd hj (by simp)
    · rw [h2] at hj; exact absurd hj (by simp)
  | false =>
  cases h4 : kwTest 4 lower with
  | true =>
    have hd : dispatchLevel lower = 4 := by simp [dispatchLevel, h0, h1, h2, h3, h4]
    rw [hd]
    by_contra hlt
    push_neg at hlt
    interval_cases j
    · rw [h0] at hj; exact absurd hj (by simp)
    · rw [h1] at hj; exact absurd hj (by simp)
    · rw [h2] at hj; exact absurd hj (by simp)
    · rw [h3] at hj; exact absurd hj (by simp)
  | false =>
    have hd : dispatchLevel lower = 5 := by simp [dispatchLevel, h0, h1, h2, h3, h4]
    rw [hd]
    by_contra hlt
    push_neg at hlt
    interval_cases j
    · rw [h0] at hj; exact absurd hj (by simp)
    · rw [h1] at hj; exact absurd hj (by simp)
    · rw [h2] at hj; exact absurd hj (by simp)
    · rw [h3] at hj; exact absurd hj (by simp)
    · rw [h4] at hj; exact absurd hj (by simp)

/-- The number of cascaded tasks `MeetingAgent.summarize` reports is the
number of action items. -/
theorem summarize_tasksCreated (m : MeetingSummary) (today : Date) (fs : FS)
    (dv : Option Date) :
    (MeetingAgent.summarize m today fs dv).2.2.2 = m.action_items.length := by
  simp [MeetingAgent.summarize]

/-- C6: in the write-command dispatch (intent `write_command`, a write
verb present, confidence at least 0.6, action `act`, no pending action
and no reset phrase), the handler runs exactly the branch of the first
matching keyword level — pending-task listing before meeting/advisor/sync
before report before progress/daily before task/todo before notes — as
witnessed by the recorded `actions`; a lower-priority match never runs
when a higher-priority keyword is present, and the notes fallback files
under Ideas exactly when `idea`/`brainstorm` occurs. -/
theorem c6_write_dispatch_priority (O : Oracles) (today : Date)
    (payload : CommandRequest) (state : AgentState) (fs : FS) (d0 : BrainDecision)
    (hpend : state.pending_action = none)
    (h1 : isSubstring (str "start a new internship") (pyLower (pyStrip payload.text)) = false)
    (h2 : isSubstring (str "new internship") (pyLower (pyStrip payload.text)) = false)
    (h3 : isSubstring (str "reset this conversation") (pyLower (pyStrip payload.text)) = false)
    (h4 : isSubstring (str "reset conversation") (pyLower (pyStrip payload.text)) = false)
    (hdec : O.decide = Except.ok d0)
    (hint : (effectiveDecision (pyLower (pyStrip payload.text)) d0).intent = str "write_command")
    (hact : (effectiveDecision (pyLower (pyStrip payload.text)) d0).action = str "act")
    (hconf : ¬ (effectiveDecision (pyLower (pyStrip payload.text)) d0).confidence < (0.6 : ℚ))
    (hverbs : (write_verbs.any
      (fun v => isSubstring v (pyLower (pyStrip payload.text)))) = true) :
    (handle_message O today payload state fs).response.actions =
      levelActions O (dispatchLevel (pyLower (pyStrip payload.text))) ∧
    (∀ j, kwTest j (pyLower (pyStrip payload.text)) = true →
      dispatchLevel (pyLower (pyStrip payload.text)) ≤ j) ∧
    (dispatchLevel (pyLower (pyStrip payload.text)) = 5 →
      (handle_message O today payload state fs).response.files =
        [renderPath ((NotesAgent.organize O.organized today fs
          (if (isSubstring (str "idea") (pyLower (pyStrip payload.text)) ||
               isSubstring (str "brainstorm") (pyLower (pyStrip payload.text)))
           then str "Ideas" else str "Learning") payload.date).2.1)]) := by
  have hne1 : ¬ (str "act" = str "ask") := by decide
  have hne2 : ¬ (str "write_command" = str "read_only") := by decide
  have hne3 : ¬ (str "act" = str "talk") := by decide
  refine ⟨?_, fun j hj => dispatchLevel_le_of_kwTest _ j hj, ?_⟩
  all_goals
    cases h0 : kwTest 0 (pyLower (pyStrip payload.text)) with
    | true =>
      have h0x := h0
      simp only [kwTest] at h0x
      have hd : dispatchLevel (pyLower (pyStrip payload.text)) = 0 := by
        simp [dispatchLevel, h0]
      rw [hd]
      simp [handle_message, hpend, h1, h2, h3, h4, hdec, hint, hact, hconf, hverbs, hne1, hne2, hne3, h0x,
        levelActions]
    | false =>
    cases h1k : kwTest 1 (pyLower (pyStrip payload.text)) with
    | true =>
      have h0x := h0
      simp only [kwTest] at h0x
      have h1x := h1k
      simp only [kwTest] at h1x
      have hd : dispatchLevel (pyLower (pyStrip payload.text)) = 1 := by
        simp [dispatchLevel, h0, h1k]
      rw [hd]
      have hlen := summarize_tasksCreated O.meeting today fs payload.date
      simp [handle_message, hpend, h1, h2, h3, h4, hdec, hint, hact, hconf, hverbs, hne1, hne2, hne3,
        h0x, h1x, hlen, levelActions]
    | false =>
    cases h2k : kwTest 2 (pyLower (pyStrip payload.text)) with
    | true =>
      have h0x := h0
      simp only [kwTest] at h0x
      have h1x := h1k
      simp only [kwTest] at h1x
      have h2x := h2k
      simp only [kwTest] at h2x
      have hd : dispatchLevel (pyLower (pyStrip payload.text)) = 2 := by
        simp [dispatchLevel, h0, h1k, h2k]
      rw [hd]
      simp [handle_message, hpend, h1, h2, h3, h4, hdec, hint, hact, hconf, hverbs, hne1, hne2, hne3,
        h0x, h1x, h2x, levelActions]
    | false =>
    cases h3k : kwTest 3 (pyLower (pyStrip payload.text)) with
    | true =>
      have h0x := h0
      simp only [kwTest] at h0x
      have h1x := h1k
      simp only [kwTest] at h1x
      have h2x := h2k
      simp only [kwTest] at h2x
      have h3x := h3k
      simp only [kwTest] at h3x
      have hd : dispatchLevel (pyLower (pyStrip payload.text)) = 3 := by
        simp [dispatchLevel, h0, h1k, h2k, h3k]
      rw [hd]
      simp [handle_message, hpend, h1, h2, h3, h4, hdec, hint, hact, hconf, hverbs, hne1, hne2, hne3,
        h0x, h1x, h2x, h3x, levelActions]
    | false =>
    cases h4k : kwTest 4 (pyLower (pyStrip payload.text)) with
    | true =>
      have h0x := h0
      simp only [kwTest] at h0x
      have h1x := h1k
      simp only [kwTest] at h1x
      have h2x := h2k
      simp only [kwTest] at h2x
      have h3x := h3k
      simp only [kwTest] at h3x
      have h4x := h4k
      simp only [kwTest] at h4x
      have hd : dispatchLevel (pyLower (pyStrip payload.text)) = 4 := by
        simp [dispatchLevel, h0, h1k, h2k, h3k, h4k]
      rw [hd]
      simp [handle_message, hpend, h1, h2, h3, h4, hdec, hint, hact, hconf, hverbs, hne1, hne2, hne3,
        h0x, h1x, h2x, h3x, h4x, levelActions]
    | false =>
      have h0x := h0
      simp only [kwTest] at h0x
      have h1x := h1k
      simp only [kwTest] at h1x
      have h2x := h2k
      simp only [kwTest] at h2x
      have h3x := h3k
      simp only [kwTest] at h3x
      have h4x := h4k
      simp only [kwTest] at h4x
      have hd : dispatchLevel (pyLower (pyStrip payload.text)) = 5 := by
        simp [dispatchLevel, h0, h1k, h2k, h3k, h4k]
      rw [hd]
      simp [handle_message, hpend, h1, h2, h3, h4, hdec, hint, hact, hconf, hverbs, hne1, hne2, hne3,
        h0x, h1x, h2x, h3x, h4x, levelActions]

/-- C6 (witness): `"save meeting report"` matches both the meeting level
and the report level; only the meeting agent runs. -/
theorem c6_write_dispatch_priority_witness :
    (handle_message
        { sampleOracles with
          decide := Except.ok ⟨str "write_command", 1, str "act", str "r", none⟩ }
        ⟨2025, 3, 15⟩ ⟨str "save meeting report", none⟩
        AgentState.empty []).response.actions =
      levelActions
        { sampleOracles with
          decide := Except.ok ⟨str "write_command", 1, str "act", str "r", none⟩ }
        (dispatchLevel (pyLower (pyStrip (str "save meeting report")))) ∧
    dispatchLevel (pyLower (pyStrip (str "save meeting report"))) = 1 := by
  have heffw : effectiveDecision (pyLower (pyStrip (str "save meeting report")))
      ⟨str "write_command", 1, str "act", str "r", none⟩ =
      ⟨str "write_command", 1, str "act", str "r", none⟩ := by
    rw [effectiveDecision, if_neg]
    decide
  have happ := c6_write_dispatch_priority
    { sampleOracles with
      decide := Except.ok ⟨str "write_command", 1, str "act", str "r", none⟩ }
    ⟨2025, 3, 15⟩ ⟨str "save meeting report", none⟩ AgentState.empty []
    ⟨str "write_command", 1, str "act", str "r", none⟩
    rfl (by decide) (by decide) (by decide) (by decide) rfl
    (by rw [heffw]) (by rw [heffw])
    (by rw [heffw]; norm_num) (by decide)
  exact ⟨happ.1, by decide⟩

/-! ### C8: at most one active profile -/

theorem countP_deactivateAll (db : ProfilesTable) :
    (ProfileService.deactivateAll db).countP (fun r => decide (r.active = 1)) = 0 := by
  simp [ProfileService.deactivateAll, List.countP_map, Function.comp]

/-- With unique primary keys, at most one row matches a given id. -/
theorem countP_pid_le_one (db : ProfilesTable) (pid : Str)
    (hnodup : (db.map ProfileRow.profile_id).Nodup) :
    List.countP (fun r => decide (r.profile_id = pid)) db ≤ 1 := by
  induction db with
  | nil => simp
  | cons r rest ih =>
    rw [List.map_cons, List.nodup_cons] at hnodup
    rw [List.countP_cons]
    by_cases hr : r.profile_id = pid
    · have hc0 : List.countP (fun x => decide (x.profile_id = pid)) rest = 0 := by
        rw [List.countP_eq_zero]
        intro a ha
        simp only [decide_eq_true_eq]
        intro hap
        exact hnodup.1 (hr ▸ hap ▸ List.mem_map_of_mem ProfileRow.profile_id ha)
      simp [hr, hc0]
    · have hstep := ih hnodup.2
      simp only [hr, decide_eq_true_eq, if_neg, reduceIte]
      omega

/-- C8: starting from any `profiles` table with unique primary keys and
at most one active row, `create_profile`, `switch_profile` and
`update_profile` each preserve the invariant that at most one profile
row has `active = 1`. -/
theorem c8_profile_ops_preserve_single_active (db : ProfilesTable)
    (hnodup : (db.map ProfileRow.profile_id).Nodup)
    (hinv : ProfileService.atMostOneActive db) :
    (∀ newId internshipName vaultRoot name startDate activate,
      ProfileService.atMostOneActive
        (ProfileService.create_profile db newId internshipName vaultRoot
          name startDate activate)) ∧
    (∀ profileId,
      ProfileService.atMostOneActive (ProfileService.switch_profile db profileId)) ∧
    (∀ profileId name internshipName startDate vaultRoot,
      ProfileService.atMostOneActive
        (ProfileService.update_profile db profileId name internshipName
          startDate vaultRoot)) := by
  rw [ProfileService.atMostOneActive] at hinv
  refine ⟨?_, ?_, ?_⟩
  · intro newId internshipName vaultRoot name startDate activate
    rw [ProfileService.atMostOneActive, ProfileService.create_profile]
    cases activate with
    | true =>
      simp only [if_true, reduceIte, List.countP_append, countP_deactivateAll]
      simp [List.countP_cons]
    | false =>
      simp only [Bool.false_eq_true, if_false, reduceIte, List.countP_append]
      have hlast : List.countP (fun r => decide (r.active = 1))
          [(⟨newId, name, internshipName, startDate, vaultRoot, 0⟩ : ProfileRow)] = 0 := by
        simp [List.countP_cons]
      omega
  · intro profileId
    rw [ProfileService.atMostOneActive, ProfileService.switch_profile]
    cases hany : db.any (fun r => decide (r.profile_id = profileId)) with
    | false => simp only [Bool.false_eq_true, if_false, reduceIte]; exact hinv
    | true =>
      simp only [if_true, reduceIte]
      rw [ProfileService.deactivateAll, List.map_map, List.countP_map]
      have hcong : List.countP
          ((fun r : ProfileRow => decide (r.active = 1)) ∘
            ((fun r => if r.profile_id = profileId then { r with active := 1 } else r) ∘
              (fun r => { r with active := 0 }))) db =
          List.countP (fun r => decide (r.profile_id = profileId)) db := by
        apply List.countP_congr
        intro x _
        by_cases hx : x.profile_id = profileId
        · simp [Function.comp, hx]
        · simp [Function.comp, hx]
      rw [hcong]
      exact countP_pid_le_one db profileId hnodup
  · intro profileId name internshipName startDate vaultRoot
    rw [ProfileService.atMostOneActive, ProfileService.update_profile]
    split
    · exact hinv
    · rw [List.countP_map]
      have hcong : List.countP
          ((fun r : ProfileRow => decide (r.active = 1)) ∘ fun r =>
            if r.profile_id = profileId then
              { r with
                name := name.or r.name,
                internship_name := internshipName.getD r.internship_name,
                start_date := startDate.or r.start_date,
                vault_root := vaultRoot.getD r.vault_root }
            else r) db =
          List.countP (fun r => decide (r.active = 1)) db := by
        apply List.countP_congr
        intro x _
        by_cases hx : x.profile_id = profileId
        · simp [Function.comp, hx]
        · simp [Function.comp, hx]
      rw [hcong]
      exact hinv

/-- C8 (witness): a two-profile table, switching to the inactive one. -/
theorem c8_profile_ops_preserve_single_active_witness :
    (([⟨str "a", none, str "X", none, str "V", 1⟩,
       ⟨str "b", none, str "Y", none, str "V", 0⟩] : ProfilesTable).map
        ProfileRow.profile_id).Nodup ∧
    ProfileService.atMostOneActive
      [⟨str "a", none, str "X", none, str "V", 1⟩,
       ⟨str "b", none, str "Y", none, str "V", 0⟩] ∧
    ProfileService.atMostOneActive
      (ProfileService.switch_profile
        [⟨str "a", none, str "X", none, str "V", 1⟩,
         ⟨str "b", none, str "Y", none, str "V", 0⟩] (str "b")) := by
  refine ⟨by decide, by rw [ProfileService.atMostOneActive]; decide, ?_⟩
  exact (c8_profile_ops_preserve_single_active
    [⟨str "a", none, str "X", none, str "V", 1⟩,
     ⟨str "b", none, str "Y", none, str "V", 0⟩]
    (by decide) (by rw [ProfileService.atMostOneActive]; decide)).2.1 (str "b")

end InternAssistant
